import Mathlib

/-!
# Verification of the Task scheduling core (velox/exec/Task.cpp)

Shallow embedding of the task/driver scheduling subsystem of a vectorized SQL
execution engine.  Each Lean definition mirrors one C++ function from
`src/velox/exec/Task.cpp`; the line numbers in the doc comments refer to that
file.  The data structures (`SplitsStore`, `SplitsState`, `ThreadState`, ...)
are declared in headers that are not part of this source drop; their fields are
reconstructed from every use inside `Task.cpp` and from section 3 of the
design document.

Modelling conventions:
* mutexes are elided: every modelled function is an atomic state transition
  (the C++ code runs the corresponding block under `Task::mutex_`);
* `VELOX_CHECK` / `VELOX_FAIL` failures are `Except.error`;
* folly promises are modelled by counters: a store or task records how many
  promises are outstanding and how many have been fulfilled, and a returned
  future is `pending` or `completed`;
* telemetry-only fields (`taskStats_` counters, timing) are modelled as
  booleans where a claim depends on them and omitted otherwise.
-/

namespace VeloxTask

/-- Task states (spec section 3): `Running` plus four terminal states. -/
inductive TaskState where
  | running
  | finished
  | canceled
  | aborted
  | failed
deriving DecidableEq, Repr

/-- `state_ == TaskState::kRunning` (Task.cpp:2100, `isRunningLocked`). -/
def TaskState.isRunning (s : TaskState) : Bool :=
  s = TaskState.running

/-- Payload of a data (non-barrier) split: `connectorSplit` identity plus the
`dataSource` preloading state used by `Task::getSplitLocked`
(Task.cpp:1916-1962).  `hasDataSource` models `connectorSplit->dataSource !=
nullptr`, `dataSourceReady` models `dataSource->hasValue()`. -/
structure DataSplitInfo where
  sid : Nat
  groupId : Option Nat
  hasDataSource : Bool
  dataSourceReady : Bool
deriving DecidableEq, Repr

/-- `exec::Split`: either a synthetic barrier marker (`Split::createBarrier`,
Task.cpp:1705) or a data split. -/
inductive Split where
  | barrier
  | data (info : DataSplitInfo)
deriving DecidableEq, Repr

/-- `split.isBarrier()` (Task.cpp:1522, 1925). -/
def Split.isBarrier : Split → Bool
  | Split.barrier => true
  | Split.data _ => false

/-- `split.hasGroup()` / `split.groupId` (Task.cpp:1544-1549): `none` models
the C++ sentinel meaning "no split group". -/
def Split.splitGroup : Split → Option Nat
  | Split.barrier => none
  | Split.data info => info.groupId

/-- `SplitsStore` (spec section 3): ordered queue of pending splits, a
`noMoreSplits` flag and the waiter promises.  Promises are modelled by the
number outstanding (`splitPromises`). -/
structure SplitsStore where
  splits : List Split
  noMoreSplits : Bool
  splitPromises : Nat
deriving DecidableEq, Repr

instance : Inhabited SplitsStore := ⟨⟨[], false, 0⟩⟩

/-- Per-plan-node split state (spec section 3): the per-group stores
(`groupSplitsStores`, a `std::map` modelled as a total function with empty
default, matching `operator[]` default construction), the node-level
`noMoreSplits` flag, the `sourceIsTableScan` flag and the duplicate-detection
watermark `maxSequenceId` (Task.cpp:1413-1424, 1450-1455). -/
structure SplitsState where
  sourceIsTableScan : Bool
  noMoreSplits : Bool
  maxSequenceId : Int
  stores : Nat → SplitsStore

/-- `kUngroupedGroupId`: the reserved group id used for ungrouped execution. -/
def kUngroupedGroupId : Nat := 4294967295

/-- Pointwise update of the `groupSplitsStores` map. -/
def updStores (f : Nat → SplitsStore) (k : Nat) (s : SplitsStore) :
    Nat → SplitsStore :=
  fun j => if j = k then s else f j

@[simp]
theorem updStores_same (f : Nat → SplitsStore) (k : Nat) (s : SplitsStore) :
    updStores f k s k = s := by
  simp [updStores]

@[simp]
theorem updStores_other (f : Nat → SplitsStore) (k j : Nat) (s : SplitsStore)
    (h : j ≠ k) : updStores f k s j = f j := by
  simp [updStores, h]

/-- The slice of `Task` state that the split-feeding API reads and writes:
task state, the barrier flags and the per-node split states (`splitsStates_`,
keyed by plan-node index), plus the grouped-execution bookkeeping
(`seenSplitGroups_`, `queuedSplitGroups_`). `serialMode` models
`mode_ == ExecutionMode::kSerial` and `barrierSupported` models
`firstNodeNotSupportingBarrier_ == nullptr` (Task.cpp:425-436). -/
structure STask where
  state : TaskState
  serialMode : Bool
  barrierSupported : Bool
  barrierRequested : Bool
  splitsStates : List SplitsState
  seenSplitGroups : List Nat
  queuedSplitGroups : List Nat

/-- `Task::addSplitToStoreLocked` (Task.cpp:1562-1573): append the split, and
if a waiter promise exists pop one to be fulfilled outside the lock.  The
returned flag tells whether a promise was popped. -/
def addSplitToStoreLocked (store : SplitsStore) (s : Split) :
    SplitsStore × Bool :=
  let store1 : SplitsStore := { store with splits := store.splits ++ [s] }
  if store1.splitPromises = 0 then (store1, false)
  else ({ store1 with splitPromises := store1.splitPromises - 1 }, true)

/-- Replace the store of group `g` of plan node `node`. -/
def setNodeStore (t : STask) (node g : Nat) (store : SplitsStore) : STask :=
  match t.splitsStates[node]? with
  | none => t
  | some ss =>
      { t with
        splitsStates :=
          t.splitsStates.set node { ss with stores := updStores ss.stores g store } }

/-- `Task::addSplitLocked` (Task.cpp:1519-1560) for plan node `node`.
A barrier split requires barrier support (`ensureBarrierSupport`,
Task.cpp:425-436), a table-scan source and no `noMoreSplits`, and goes to the
ungrouped store.  A data split is rejected while a barrier round is
outstanding; otherwise it goes to the ungrouped store or to its group's store,
registering a first-seen group (`seenSplitGroups_`/`queuedSplitGroups_`,
Task.cpp:1552-1557; the driver-creation side effect of
`ensureSplitGroupsAreBeingProcessedLocked` acts on driver state outside this
model).  The `taskStats_` split counters (Task.cpp:1532-1542) are telemetry
and are not modelled.  The returned flag reports whether a waiter promise was
popped for fulfilment. -/
def addSplitLocked (t : STask) (node : Nat) (s : Split) :
    Except String (STask × Bool) :=
  match t.splitsStates[node]? with
  | none => Except.error "unknown plan node"
  | some ss =>
      match s with
      | Split.barrier =>
          if ¬(t.serialMode ∧ t.barrierSupported) then
            Except.error "Task does not support barriered execution"
          else if ¬ss.sourceIsTableScan then
            Except.error "source is not a table scan"
          else if ss.noMoreSplits then
            Except.error "no more splits"
          else
            let r := addSplitToStoreLocked (ss.stores kUngroupedGroupId) Split.barrier
            Except.ok (setNodeStore t node kUngroupedGroupId r.1, r.2)
      | Split.data info =>
          if t.barrierRequested then
            Except.error "Cannot add new split under barrier processing"
          else
            match info.groupId with
            | none =>
                let r := addSplitToStoreLocked (ss.stores kUngroupedGroupId) (Split.data info)
                Except.ok (setNodeStore t node kUngroupedGroupId r.1, r.2)
            | some g =>
                let t1 : STask :=
                  if g ∈ t.seenSplitGroups then t
                  else
                    { t with
                      seenSplitGroups := g :: t.seenSplitGroups,
                      queuedSplitGroups := t.queuedSplitGroups ++ [g] }
                let r := addSplitToStoreLocked (ss.stores g) (Split.data info)
                Except.ok (setNodeStore t1 node g r.1, r.2)

/-- `Task::addSplitWithSequence` (Task.cpp:1434-1474).  Under the lock: if the
task is running and `sequenceId > maxSequenceId` of the node, the split is
added (`added = true`); otherwise it is dropped as a duplicate.  When the task
is not running the split goes to the remote-split path (exchange clients,
outside this model) and `added` stays false.  Note the watermark
`maxSequenceId` is NOT advanced here; only `setMaxSplitSequenceId` advances
it.  Result: task, `added`, and whether a waiter promise was fulfilled. -/
def addSplitWithSequence (t : STask) (node : Nat) (s : Split) (seq : Int) :
    Except String (STask × Bool × Bool) :=
  if t.state = TaskState.running then
    match t.splitsStates[node]? with
    | none => Except.error "unknown plan node"
    | some ss =>
        if ss.maxSequenceId < seq then
          match addSplitLocked t node s with
          | Except.error e => Except.error e
          | Except.ok r => Except.ok (r.1, true, r.2)
        else Except.ok (t, false, false)
  else Except.ok (t, false, false)

/-- `Task::setMaxSplitSequenceId` (Task.cpp:1413-1424): raise the node's
watermark to `max` of old and new; no-op when the task is not running. -/
def setMaxSplitSequenceId (t : STask) (node : Nat) (maxSeq : Int) :
    Except String STask :=
  if t.state = TaskState.running then
    match t.splitsStates[node]? with
    | none => Except.error "unknown plan node"
    | some ss =>
        Except.ok
          { t with
            splitsStates :=
              t.splitsStates.set node
                { ss with maxSequenceId := max ss.maxSequenceId maxSeq } }
  else Except.ok t

/-- The preload pass of `Task::getSplitLocked` (Task.cpp:1922-1939), split
marking half: among the first `budget` queued splits, every non-barrier split
whose `dataSource` is not yet initialized is passed to the preload callback,
which initializes its `dataSource` (`hasDataSource := true`).  Returns the
transformed queue and the ids passed to the callback, in order. -/
def markPreload : List Split → Nat → List Split × List Nat
  | ss, 0 => (ss, [])
  | [], _ + 1 => ([], [])
  | Split.barrier :: rest, b + 1 =>
      let r := markPreload rest b
      (Split.barrier :: r.1, r.2)
  | Split.data info :: rest, b + 1 =>
      if info.hasDataSource then
        let r := markPreload rest b
        (Split.data info :: r.1, r.2)
      else
        let r := markPreload rest b
        (Split.data { info with hasDataSource := true } :: r.1, info.sid :: r.2)

/-- The preload pass of `Task::getSplitLocked` (Task.cpp:1922-1939), ready
search half: `readySplitIndex` is the first index `< budget` holding a
non-barrier split whose `dataSource` was already initialized before this call
and is ready (`dataSource->hasValue()`); splits preloaded during the same pass
are skipped by the `else if` in the source. -/
def readyIndex : List Split → Nat → Option Nat
  | _, 0 => none
  | [], _ + 1 => none
  | Split.barrier :: rest, b + 1 => (readyIndex rest b).map (· + 1)
  | Split.data info :: rest, b + 1 =>
      if info.hasDataSource ∧ info.dataSourceReady then some 0
      else (readyIndex rest b).map (· + 1)

/-- `Task::getSplitLocked` (Task.cpp:1916-1962).  When `maxPreloadSplits > 0`
the preload pass runs; the returned split is the one at `readySplitIndex`
(falling back to the head of the queue when no preloaded split is ready), and
it is erased from the queue.  The `taskStats_` split counters and
`preloadingSplits_` bookkeeping (Task.cpp:1932, 1936, 1947-1958) are
telemetry/cleanup state not modelled here; the ids handed to the preload
callback are returned instead.  The source checks the store is non-empty
(`VELOX_CHECK`, Task.cpp:1943); on an empty store this model returns the junk
split `Split.barrier`. -/
def getSplitLocked (store : SplitsStore) (maxPreloadSplits : Nat) :
    Split × SplitsStore × List Nat :=
  let mp := markPreload store.splits maxPreloadSplits
  let idx : Nat := (readyIndex store.splits maxPreloadSplits).getD 0
  (mp.1.getD idx Split.barrier,
   { store with splits := mp.1.eraseIdx idx },
   mp.2)

/-- `BlockingReason` as used by the split API (Task.cpp:1889-1901). -/
inductive BlockingReason where
  | notBlocked
  | waitForSplit
deriving DecidableEq, Repr

/-- Result of `Task::getSplitOrFutureLocked`: the blocking reason, the split
assigned to the output parameter (`none` = left untouched), the updated
store, whether a future was handed back, and the preloaded split ids. -/
structure GetSplitResult where
  reason : BlockingReason
  split : Option Split
  store : SplitsStore
  futureReturned : Bool
  preloaded : List Nat
deriving DecidableEq, Repr

/-- `Task::getSplitOrFutureLocked` (Task.cpp:1882-1902).  Empty queue: with
`noMoreSplits` return `kNotBlocked` leaving the output split untouched,
otherwise register a waiter promise and return `kWaitForSplit` with its
future.  Non-empty queue: return `kNotBlocked` with the split chosen by
`getSplitLocked`.  (`forTableScan` only feeds stats counters in the source and
is dropped here.) -/
def getSplitOrFutureLocked (store : SplitsStore) (maxPreloadSplits : Nat) :
    GetSplitResult :=
  if store.splits.isEmpty then
    if store.noMoreSplits then
      ⟨BlockingReason.notBlocked, none, store, false, []⟩
    else
      ⟨BlockingReason.waitForSplit, none,
        { store with splitPromises := store.splitPromises + 1 }, true, []⟩
  else
    let r := getSplitLocked store maxPreloadSplits
    ⟨BlockingReason.notBlocked, some r.1, r.2.1, false, r.2.2⟩

/-- Repeatedly consume splits through `getSplitOrFutureLocked` with preloading
disabled, as a source operator without preloading does, until the store would
block or report end-of-splits.  Fuel-indexed; `drainStore` supplies enough
fuel for the whole queue. -/
def drainStoreAux : Nat → SplitsStore → List Split
  | 0, _ => []
  | fuel + 1, store =>
      let r := getSplitOrFutureLocked store 0
      match r.split with
      | none => []
      | some s => s :: drainStoreAux fuel r.store

/-- All splits observed by draining the store through `getSplitOrFutureLocked`. -/
def drainStore (store : SplitsStore) : List Split :=
  drainStoreAux store.splits.length store

/-- What the preload callback does to one split: a data split gets its
`dataSource` initialized; a barrier is untouched (the loop skips it). -/
def markSplit : Split → Split
  | Split.barrier => Split.barrier
  | Split.data info => Split.data { info with hasDataSource := true }

/-- The id handed to the preload callback for one split, if any: only data
splits whose `dataSource` is not yet initialized are preloaded. -/
def preloadId : Split → Option Nat
  | Split.barrier => none
  | Split.data info => if info.hasDataSource then none else some info.sid

/-- A split the ready-search of `getSplitLocked` accepts: a data split whose
`dataSource` was initialized before the call and is ready. -/
def isReadySplit : Split → Bool
  | Split.barrier => false
  | Split.data info => info.hasDataSource && info.dataSourceReady

theorem markSplit_of_ready (s : Split) (h : isReadySplit s = true) :
    markSplit s = s := by
  cases s with
  | barrier => rfl
  | data info =>
      obtain ⟨sid, gid, hds, rdy⟩ := info
      simp only [isReadySplit, Bool.and_eq_true] at h
      simp [markSplit, h.1]

/-- The queue after the preload pass: the first `n` splits are marked, the
rest are untouched. -/
theorem markPreload_fst (l : List Split) (n : Nat) :
    (markPreload l n).1 = (l.take n).map markSplit ++ l.drop n := by
  induction l generalizing n with
  | nil => cases n <;> simp [markPreload]
  | cons s rest ih =>
      cases n with
      | zero => simp [markPreload]
      | succ b =>
          cases s with
          | barrier => simp [markPreload, markSplit, ih]
          | data info =>
              obtain ⟨sid, gid, hds0, rdy⟩ := info
              by_cases hds : hds0
              · subst hds; simp [markPreload, markSplit, ih]
              · have : hds0 = false := by
                  rcases Bool.eq_false_or_eq_true hds0 with h1 | h1 <;> simp_all
                subst this; simp [markPreload, markSplit, ih]

/-- The ids passed to the preload callback are exactly the not-yet-preloaded
data splits among the first `n` queued splits, in queue order; in particular
no barrier split is ever passed to the callback. -/
theorem markPreload_snd (l : List Split) (n : Nat) :
    (markPreload l n).2 = (l.take n).filterMap preloadId := by
  induction l generalizing n with
  | nil => cases n <;> simp [markPreload]
  | cons s rest ih =>
      cases n with
      | zero => simp [markPreload]
      | succ b =>
          cases s with
          | barrier => simp [markPreload, preloadId, ih]
          | data info =>
              by_cases hds : info.hasDataSource
              · simp [markPreload, preloadId, hds, ih]
              · simp [markPreload, preloadId, hds, ih]

/-- The ready-search of `getSplitLocked` finds the first ready split among
the first `n` queued splits. -/
theorem readyIndex_eq_findIdx? (l : List Split) (n : Nat) :
    readyIndex l n = (l.take n).findIdx? isReadySplit := by
  induction l generalizing n with
  | nil => cases n <;> simp [readyIndex]
  | cons s rest ih =>
      cases n with
      | zero => simp [readyIndex]
      | succ b =>
          cases s with
          | barrier => simp [readyIndex, isReadySplit, List.findIdx?_cons, ih]
          | data info =>
              by_cases hr : info.hasDataSource ∧ info.dataSourceReady
              · simp [readyIndex, isReadySplit, List.findIdx?_cons, hr, hr.1, hr.2]
              · have : (info.hasDataSource && info.dataSourceReady) = false := by
                  rcases Bool.eq_false_or_eq_true info.hasDataSource with h1 | h1 <;>
                    rcases Bool.eq_false_or_eq_true info.dataSourceReady with h2 | h2 <;>
                      simp_all
                simp [readyIndex, isReadySplit, List.findIdx?_cons, hr, this, ih]

/-- With preloading disabled, consuming a split pops the head of the queue. -/
theorem getSplitLocked_no_preload (store : SplitsStore) (s : Split)
    (rest : List Split) (h : store.splits = s :: rest) :
    getSplitLocked store 0 = (s, { store with splits := rest }, []) := by
  simp [getSplitLocked, markPreload, readyIndex, h]

theorem drainStoreAux_spec (l : List Split) (nm : Bool) (p : Nat) :
    drainStoreAux l.length ⟨l, nm, p⟩ = l := by
  induction l with
  | nil => simp [drainStoreAux]
  | cons s rest ih =>
      have hget :
          getSplitOrFutureLocked ⟨s :: rest, nm, p⟩ 0 =
            ⟨BlockingReason.notBlocked, some s, ⟨rest, nm, p⟩, false, []⟩ := by
        simp [getSplitOrFutureLocked,
          getSplitLocked_no_preload ⟨s :: rest, nm, p⟩ s rest rfl]
      simp [drainStoreAux, hget, ih]

/-- Draining a store through `getSplitOrFutureLocked` (no preloading) yields
exactly the queued splits, in FIFO order: each split is observed exactly
once. -/
theorem drainStore_eq (store : SplitsStore) : drainStore store = store.splits := by
  obtain ⟨l, nm, p⟩ := store
  exact drainStoreAux_spec l nm p

/-- C5, counterexample to the claim as stated: on a store whose queue is
empty with `noMoreSplits` set, `getSplitOrFutureLocked` returns `kNotBlocked`
WITHOUT assigning a split to the output parameter (Task.cpp:1889-1891) — so
"NotBlocked together with a split" does not hold on every call. -/
theorem getSplitOrFutureLocked_notBlocked_no_split :
    (getSplitOrFutureLocked ⟨[], true, 0⟩ 0).reason = BlockingReason.notBlocked
    ∧ (getSplitOrFutureLocked ⟨[], true, 0⟩ 0).split = none
    ∧ ¬((getSplitOrFutureLocked ⟨[], true, 0⟩ 0).split.isSome = true) := by
  decide

/-- C5 (amended): `getSplitOrFutureLocked` returns `kNotBlocked` with a split
assigned whenever the queue is non-empty; on an empty queue with
`noMoreSplits` it returns `kNotBlocked` with the output split untouched and
the store unchanged; and it returns `kWaitForSplit` together with a future
whose promise is registered in the store's waiter list exactly when the queue
is empty and `noMoreSplits` is false, leaving the split queue unchanged. -/
theorem getSplitOrFutureLocked_spec (store : SplitsStore) (maxPre : Nat) :
    (store.splits ≠ [] →
      (getSplitOrFutureLocked store maxPre).reason = BlockingReason.notBlocked
      ∧ ((getSplitOrFutureLocked store maxPre).split.isSome = true))
    ∧ (store.splits = [] → store.noMoreSplits = true →
        getSplitOrFutureLocked store maxPre =
          ⟨BlockingReason.notBlocked, none, store, false, []⟩)
    ∧ ((getSplitOrFutureLocked store maxPre).reason = BlockingReason.waitForSplit
        ↔ store.splits = [] ∧ store.noMoreSplits = false)
    ∧ ((getSplitOrFutureLocked store maxPre).reason = BlockingReason.waitForSplit →
        (getSplitOrFutureLocked store maxPre).futureReturned = true
        ∧ (getSplitOrFutureLocked store maxPre).store.splits = store.splits
        ∧ (getSplitOrFutureLocked store maxPre).store.splitPromises
            = store.splitPromises + 1
        ∧ (getSplitOrFutureLocked store maxPre).store.noMoreSplits
            = store.noMoreSplits
        ∧ (getSplitOrFutureLocked store maxPre).split = none) := by
  by_cases he : store.splits = []
  · by_cases hn : store.noMoreSplits
    · simp [getSplitOrFutureLocked, he, hn]
    · simp [getSplitOrFutureLocked, he, hn]
  · simp [getSplitOrFutureLocked, he]

/-- C5 witness: a concrete blocked call registers a waiter promise. -/
theorem getSplitOrFutureLocked_spec_witness :
    (getSplitOrFutureLocked ⟨[], false, 3⟩ 0).reason = BlockingReason.waitForSplit
    ∧ (getSplitOrFutureLocked ⟨[], false, 3⟩ 0).store.splitPromises = 3 + 1 := by
  have h := getSplitOrFutureLocked_spec ⟨[], false, 3⟩ 0
  have hr := h.2.2.1.mpr ⟨rfl, rfl⟩
  exact ⟨hr, (h.2.2.2 hr).2.2.1⟩

/-- At an index the ready-search found, the preload pass left the split
unchanged (it already had a `dataSource`), so reading it from the marked
queue reads the original split; that split is ready. -/
theorem marked_getD_of_ready (l : List Split) (n i : Nat)
    (h : (l.take n).findIdx? isReadySplit = some i) :
    ((l.take n).map markSplit ++ l.drop n).getD i Split.barrier
      = l.getD i Split.barrier
    ∧ ∃ s, l.getD i Split.barrier = s ∧ isReadySplit s = true := by
  obtain ⟨hlt, hp, _⟩ := List.findIdx?_eq_some_iff_getElem.mp h
  have hin : i < n := by
    have := hlt
    simp only [List.length_take] at this
    omega
  have htake : (l.take n)[i]? = l[i]? := List.getElem?_take_of_lt hin
  have hsome : l[i]? = some ((l.take n).get ⟨i, hlt⟩) := by
    rw [← htake, List.getElem?_eq_getElem hlt]
    simp
  have hmlen : i < ((l.take n).map markSplit).length := by simpa using hlt
  have hready : isReadySplit ((l.take n).get ⟨i, hlt⟩) = true := by
    simpa using hp
  have hi_len : i < l.length := by
    have := hlt
    simp only [List.length_take] at this
    omega
  have hlig : l.get ⟨i, hi_len⟩ = (l.take n).get ⟨i, hlt⟩ := by
    have h2 := hsome
    rw [List.getElem?_eq_getElem hi_len] at h2
    simp only [Option.some.injEq] at h2
    exact h2
  constructor
  · rw [List.getD_eq_getElem?_getD, List.getElem?_append_left hmlen,
      List.getElem?_map, htake, hsome, List.getD_eq_getElem?_getD, hsome]
    simp only [Option.map_some', Option.getD_some]
    exact markSplit_of_ready _ hready
  · refine ⟨(l.take n).get ⟨i, hlt⟩, ?_, hready⟩
    rw [List.getD_eq_getElem?_getD, hsome]
    rfl

/-- The head of the marked queue is the marked head of the original queue. -/
theorem marked_getD_zero (l : List Split) (n : Nat) (hne : l ≠ [])
    (hn : 0 < n) :
    ((l.take n).map markSplit ++ l.drop n).getD 0 Split.barrier
      = markSplit (l.getD 0 Split.barrier) := by
  cases l with
  | nil => exact absurd rfl hne
  | cons s rest =>
      cases n with
      | zero => omega
      | succ m => simp [List.take]

/-- C6, counterexample to the claim as stated: on the queue
`[data(notReady), barrier, data(ready)]` with `maxPreloadSplits = 3`,
`getSplitLocked` returns the ready data split queued AFTER the barrier while
the barrier stays in the queue — the barrier IS reordered relative to that
split (Task.cpp:1933-1945: `readySplitIndex` may point past a barrier). -/
theorem getSplitLocked_overtakes_barrier :
    (getSplitLocked ⟨[Split.data ⟨0, none, true, false⟩, Split.barrier,
        Split.data ⟨2, none, true, true⟩], false, 0⟩ 3).1
      = Split.data ⟨2, none, true, true⟩
    ∧ (getSplitLocked ⟨[Split.data ⟨0, none, true, false⟩, Split.barrier,
        Split.data ⟨2, none, true, true⟩], false, 0⟩ 3).2.1.splits
      = [Split.data ⟨0, none, true, false⟩, Split.barrier] := by
  decide

/-- C6 (amended): with `maxPreloadSplits > 0` on a non-empty store,
`getSplitLocked` (i) hands to the preload callback exactly the
not-yet-preloaded data splits among the first `maxPreloadSplits` queued
splits — never a barrier; (ii) if some split among the first
`maxPreloadSplits` had an already-initialized, ready `dataSource`, it returns
the first such split (which may sit AFTER a queued barrier); (iii) otherwise
it returns the (marked) head of the queue; (iv) a barrier is itself only ever
returned from the head of the queue; and (v) the store's `noMoreSplits` and
waiter promises are untouched. -/
theorem getSplitLocked_spec (store : SplitsStore) (maxPre : Nat)
    (hne : store.splits ≠ []) (hpre : 0 < maxPre) :
    ((getSplitLocked store maxPre).2.2
        = (store.splits.take maxPre).filterMap preloadId)
    ∧ (∀ i, (store.splits.take maxPre).findIdx? isReadySplit = some i →
        (getSplitLocked store maxPre).1 = store.splits.getD i Split.barrier
        ∧ isReadySplit ((getSplitLocked store maxPre).1) = true
        ∧ (getSplitLocked store maxPre).2.1.splits
            = ((store.splits.take maxPre).map markSplit
                ++ store.splits.drop maxPre).eraseIdx i)
    ∧ ((store.splits.take maxPre).findIdx? isReadySplit = none →
        (getSplitLocked store maxPre).1
          = markSplit (store.splits.getD 0 Split.barrier)
        ∧ (getSplitLocked store maxPre).2.1.splits
            = ((store.splits.take maxPre).map markSplit
                ++ store.splits.drop maxPre).eraseIdx 0)
    ∧ ((getSplitLocked store maxPre).1.isBarrier = true →
        store.splits.getD 0 Split.barrier = Split.barrier
        ∧ (store.splits.take maxPre).findIdx? isReadySplit = none)
    ∧ (getSplitLocked store maxPre).2.1.noMoreSplits = store.noMoreSplits
    ∧ (getSplitLocked store maxPre).2.1.splitPromises = store.splitPromises := by
  have hmf := markPreload_fst store.splits maxPre
  have hms := markPreload_snd store.splits maxPre
  have hri := readyIndex_eq_findIdx? store.splits maxPre
  refine ⟨?_, ?_, ?_, ?_, ?_, ?_⟩
  · simp [getSplitLocked, hms]
  · intro i hidx
    obtain ⟨hget, s, hgs, hrs⟩ := marked_getD_of_ready store.splits maxPre i hidx
    have hret : (getSplitLocked store maxPre).1
        = ((store.splits.take maxPre).map markSplit
            ++ store.splits.drop maxPre).getD i Split.barrier := by
      simp only [getSplitLocked, hmf, hri, hidx, Option.getD_some]
    refine ⟨?_, ?_, ?_⟩
    · rw [hret, hget]
    · rw [hret, hget, hgs]
      exact hrs
    · simp only [getSplitLocked, hmf, hri, hidx, Option.getD_some]
  · intro hidx
    refine ⟨?_, ?_⟩
    · simp only [getSplitLocked, hri, hidx, hmf, Option.getD_none]
      exact marked_getD_zero store.splits maxPre hne hpre
    · simp [getSplitLocked, hri, hidx, hmf]
  · intro hbar
    cases hidx : (store.splits.take maxPre).findIdx? isReadySplit with
    | some i =>
        obtain ⟨hget, s, hgs, hrs⟩ := marked_getD_of_ready store.splits maxPre i hidx
        have : (getSplitLocked store maxPre).1 = s := by
          simp only [getSplitLocked, hri, hidx, hmf, Option.getD_some]
          rw [hget, hgs]
        rw [this] at hbar
        cases s with
        | barrier => simp [isReadySplit] at hrs
        | data info => simp [Split.isBarrier] at hbar
    | none =>
        have hhead : (getSplitLocked store maxPre).1
            = markSplit (store.splits.getD 0 Split.barrier) := by
          simp only [getSplitLocked, hri, hidx, hmf, Option.getD_none]
          exact marked_getD_zero store.splits maxPre hne hpre
        rw [hhead] at hbar
        refine ⟨?_, rfl⟩
        cases h0 : store.splits.getD 0 Split.barrier with
        | barrier => rfl
        | data info => rw [h0] at hbar; simp [markSplit, Split.isBarrier] at hbar
  · simp [getSplitLocked]
  · simp [getSplitLocked]

/-- C6 witness: a not-yet-preloaded single-split store gets its split
preloaded and returned from the head. -/
theorem getSplitLocked_spec_witness :
    (getSplitLocked ⟨[Split.data ⟨7, none, false, false⟩], false, 0⟩ 2).2.2 = [7]
    ∧ (getSplitLocked ⟨[Split.data ⟨7, none, false, false⟩], false, 0⟩ 2).1
        = Split.data ⟨7, none, true, false⟩ := by
  have h := getSplitLocked_spec ⟨[Split.data ⟨7, none, false, false⟩], false, 0⟩ 2
    (by decide) (by decide)
  refine ⟨h.1.trans (by decide), ?_⟩
  exact ((h.2.2.1 (by decide)).1).trans (by decide)

/-- `Task::addSplit` (Task.cpp:1476-1503): under the lock, add the split if
the task is running; otherwise the split goes to the remote-split path
(exchange clients, outside this model). -/
def addSplit (t : STask) (node : Nat) (s : Split) :
    Except String (STask × Bool) :=
  if t.state = TaskState.running then addSplitLocked t node s
  else Except.ok (t, false)

@[simp]
theorem setNodeStore_state (t : STask) (node g : Nat) (store : SplitsStore) :
    (setNodeStore t node g store).state = t.state := by
  unfold setNodeStore
  cases t.splitsStates[node]? <;> rfl

@[simp]
theorem setNodeStore_barrierRequested (t : STask) (node g : Nat)
    (store : SplitsStore) :
    (setNodeStore t node g store).barrierRequested = t.barrierRequested := by
  unfold setNodeStore
  cases t.splitsStates[node]? <;> rfl

theorem setNodeStore_get_same (t : STask) (node g : Nat) (store : SplitsStore)
    (ss : SplitsState) (h : t.splitsStates[node]? = some ss) :
    (setNodeStore t node g store).splitsStates[node]?
      = some { ss with stores := updStores ss.stores g store } := by
  have hlt : node < t.splitsStates.length := by
    by_contra hge
    rw [List.getElem?_eq_none (by omega)] at h
    exact Option.noConfusion h
  simp [setNodeStore, h, List.getElem?_set_self hlt]

/-- The fields of `addSplitToStoreLocked`'s result. -/
theorem addSplitToStoreLocked_fields (store : SplitsStore) (s : Split) :
    (addSplitToStoreLocked store s).1.splits = store.splits ++ [s]
    ∧ (addSplitToStoreLocked store s).1.noMoreSplits = store.noMoreSplits := by
  unfold addSplitToStoreLocked
  by_cases h : store.splitPromises = 0 <;> simp [h]

/-- An accepted `addSplitWithSequence` call on an ungrouped data split:
sequence id above the watermark, task running, no barrier outstanding. -/
theorem addSplitWithSequence_accept (t : STask) (node : Nat)
    (ss : SplitsState) (info : DataSplitInfo) (seq : Int)
    (hrun : t.state = TaskState.running)
    (hss : t.splitsStates[node]? = some ss)
    (hnb : t.barrierRequested = false)
    (hgi : info.groupId = none)
    (hseq : ss.maxSequenceId < seq) :
    addSplitWithSequence t node (Split.data info) seq =
      Except.ok
        (setNodeStore t node kUngroupedGroupId
            (addSplitToStoreLocked (ss.stores kUngroupedGroupId)
              (Split.data info)).1,
          true,
          (addSplitToStoreLocked (ss.stores kUngroupedGroupId)
            (Split.data info)).2) := by
  simp [addSplitWithSequence, addSplitLocked, hrun, hss, hnb, hgi, hseq]

/-- A dropped `addSplitWithSequence` call: sequence id at or below the
watermark; the task (and so every split store) is unchanged and `false` is
returned. -/
theorem addSplitWithSequence_drop (t : STask) (node : Nat)
    (ss : SplitsState) (s : Split) (seq : Int)
    (hrun : t.state = TaskState.running)
    (hss : t.splitsStates[node]? = some ss)
    (hseq : ¬ss.maxSequenceId < seq) :
    addSplitWithSequence t node s seq = Except.ok (t, false, false) := by
  simp [addSplitWithSequence, hrun, hss, hseq]

/-- `addSplitWithSequence` on a task that is not running: no store change,
returns `false` (the split goes to the remote-split path). -/
theorem addSplitWithSequence_not_running (t : STask) (node : Nat) (s : Split)
    (seq : Int) (hrun : t.state ≠ TaskState.running) :
    addSplitWithSequence t node s seq = Except.ok (t, false, false) := by
  simp [addSplitWithSequence, hrun]

/-- A sequence of `addSplitWithSequence` calls against one plan node,
returning the final task and the list of `added` flags. -/
def addSeq (t : STask) (node : Nat) :
    List (DataSplitInfo × Int) → Except String (STask × List Bool)
  | [] => Except.ok (t, [])
  | c :: rest =>
      match addSplitWithSequence t node (Split.data c.1) c.2 with
      | Except.error e => Except.error e
      | Except.ok r =>
          match addSeq r.1 node rest with
          | Except.error e => Except.error e
          | Except.ok r2 => Except.ok (r2.1, r.2.1 :: r2.2)

/-- Chain lemma: if every sequence id of the run is above the node's current
watermark (which `addSplitWithSequence` never advances), every call is
accepted and the splits are appended to the node's ungrouped store in call
order. -/
theorem addSeq_all_added (calls : List (DataSplitInfo × Int)) (t : STask)
    (node : Nat) (ss : SplitsState)
    (hrun : t.state = TaskState.running)
    (hss : t.splitsStates[node]? = some ss)
    (hnb : t.barrierRequested = false)
    (hg : ∀ c ∈ calls, (c : DataSplitInfo × Int).1.groupId = none)
    (habove : ∀ c ∈ calls, ss.maxSequenceId < (c : DataSplitInfo × Int).2) :
    ∃ t' ss', addSeq t node calls
        = Except.ok (t', List.replicate calls.length true)
      ∧ t'.splitsStates[node]? = some ss'
      ∧ ss'.maxSequenceId = ss.maxSequenceId
      ∧ (ss'.stores kUngroupedGroupId).splits
          = (ss.stores kUngroupedGroupId).splits
            ++ calls.map (fun c => Split.data c.1)
      ∧ (ss'.stores kUngroupedGroupId).noMoreSplits
          = (ss.stores kUngroupedGroupId).noMoreSplits := by
  induction calls generalizing t ss with
  | nil => exact ⟨t, ss, rfl, hss, rfl, by simp, rfl⟩
  | cons c rest ih =>
      have hacc := addSplitWithSequence_accept t node ss c.1 c.2 hrun hss hnb
        (hg c (by simp)) (habove c (by simp))
      set store1 := (addSplitToStoreLocked (ss.stores kUngroupedGroupId)
        (Split.data c.1)).1 with hstore1
      set t1 := setNodeStore t node kUngroupedGroupId store1 with ht1
      have hss1 : t1.splitsStates[node]?
          = some { ss with stores := updStores ss.stores kUngroupedGroupId store1 } :=
        setNodeStore_get_same t node kUngroupedGroupId store1 ss hss
      have hrun1 : t1.state = TaskState.running := by
        rw [ht1, setNodeStore_state]; exact hrun
      have hnb1 : t1.barrierRequested = false := by
        rw [ht1, setNodeStore_barrierRequested]; exact hnb
      obtain ⟨t', ss', hseq', hss', hmax', hsplits', hnm'⟩ :=
        ih t1 { ss with stores := updStores ss.stores kUngroupedGroupId store1 }
          hrun1 hss1 hnb1
          (fun x hx => hg x (by simp [hx]))
          (fun x hx => habove x (by simp [hx]))
      refine ⟨t', ss', ?_, hss', hmax', ?_, ?_⟩
      · simp only [addSeq, hacc, hseq']
        rfl
      · rw [hsplits']
        simp only [updStores_same]
        rw [hstore1, (addSplitToStoreLocked_fields _ _).1]
        simp
      · rw [hnm']
        simp only [updStores_same]
        rw [hstore1, (addSplitToStoreLocked_fields _ _).2]

/-- A fresh running task with one ungrouped table-scan source node whose
watermark is 0 (as left by `setMaxSplitSequenceId(0)`). -/
def freshTask : STask :=
  { state := TaskState.running
    serialMode := true
    barrierSupported := true
    barrierRequested := false
    splitsStates := [⟨true, false, 0, fun _ => default⟩]
    seenSplitGroups := []
    queuedSplitGroups := [] }

/-- A sample data split payload. -/
def dupInfo : DataSplitInfo := ⟨7, none, false, false⟩

/-- C1, counterexample to the claim as stated: `addSplitWithSequence` never
advances `maxSequenceId` (only `setMaxSplitSequenceId`, Task.cpp:1413-1424,
does), so re-delivering the SAME `sequenceId = 5` twice against a node whose
watermark is 0 is accepted BOTH times (Task.cpp:1451-1455): the second,
non-increasing sequence id is not dropped, and the split is observed twice
by `getSplitOrFuture`. -/
theorem addSplitWithSequence_duplicate_not_dropped :
    ∃ t1, addSplitWithSequence freshTask 0 (Split.data dupInfo) 5
        = Except.ok (t1, true, false)
    ∧ ∃ t2, addSplitWithSequence t1 0 (Split.data dupInfo) 5
        = Except.ok (t2, true, false)
    ∧ ∃ ss2, t2.splitsStates[0]? = some ss2
    ∧ drainStore (ss2.stores kUngroupedGroupId)
        = [Split.data dupInfo, Split.data dupInfo] := by
  exact ⟨_, rfl, _, rfl, _, rfl, rfl⟩

/-- C1 (amended): for a running task with no barrier round outstanding,
`addSplitWithSequence` on an (ungrouped) data split appends the split to the
node's store and returns true exactly when `sequenceId` is above the node's
current `maxSequenceId`, and otherwise drops the split as a duplicate
(returns false, task — hence every split store — unchanged); the watermark
itself is NOT advanced by the call (only `setMaxSplitSequenceId` advances
it); consequently, for every run of such calls whose sequence ids all lie
above the node's current watermark (in particular any strictly increasing
run whose first id is above it), every split is appended and then observed
exactly once, in order, by `getSplitOrFuture`. -/
theorem addSplitWithSequence_dedup_spec :
    (∀ t node ss info seq, t.state = TaskState.running →
      t.splitsStates[node]? = some ss →
      t.barrierRequested = false → info.groupId = none →
      ss.maxSequenceId < seq →
      addSplitWithSequence t node (Split.data info) seq
        = Except.ok
            (setNodeStore t node kUngroupedGroupId
                (addSplitToStoreLocked (ss.stores kUngroupedGroupId)
                  (Split.data info)).1,
              true,
              (addSplitToStoreLocked (ss.stores kUngroupedGroupId)
                (Split.data info)).2)
      ∧ ∃ ss', (setNodeStore t node kUngroupedGroupId
            (addSplitToStoreLocked (ss.stores kUngroupedGroupId)
              (Split.data info)).1).splitsStates[node]? = some ss'
          ∧ ss'.maxSequenceId = ss.maxSequenceId
          ∧ (ss'.stores kUngroupedGroupId).splits
              = (ss.stores kUngroupedGroupId).splits ++ [Split.data info])
    ∧ (∀ t node ss s seq, t.state = TaskState.running →
        t.splitsStates[node]? = some ss → ¬ss.maxSequenceId < seq →
        addSplitWithSequence t node s seq = Except.ok (t, false, false))
    ∧ (∀ t node s seq, t.state ≠ TaskState.running →
        addSplitWithSequence t node s seq = Except.ok (t, false, false))
    ∧ (∀ calls t node ss, t.state = TaskState.running →
        t.splitsStates[node]? = some ss → t.barrierRequested = false →
        (∀ c ∈ calls, (c : DataSplitInfo × Int).1.groupId = none) →
        (∀ c ∈ calls, ss.maxSequenceId < (c : DataSplitInfo × Int).2) →
        ∃ t' ss', addSeq t node calls
            = Except.ok (t', List.replicate calls.length true)
          ∧ t'.splitsStates[node]? = some ss'
          ∧ ss'.maxSequenceId = ss.maxSequenceId
          ∧ drainStore (ss'.stores kUngroupedGroupId)
              = (ss.stores kUngroupedGroupId).splits
                ++ calls.map (fun c => Split.data c.1)) := by
  refine ⟨?_, ?_, ?_, ?_⟩
  · intro t node ss info seq hrun hss hnb hgi hseq
    refine ⟨addSplitWithSequence_accept t node ss info seq hrun hss hnb hgi hseq,
      ⟨_, setNodeStore_get_same t node kUngroupedGroupId _ ss hss, rfl, ?_⟩⟩
    simp only [updStores_same]
    exact (addSplitToStoreLocked_fields _ _).1
  · intro t node ss s seq hrun hss hseq
    exact addSplitWithSequence_drop t node ss s seq hrun hss hseq
  · intro t node s seq hrun
    exact addSplitWithSequence_not_running t node s seq hrun
  · intro calls t node ss hrun hss hnb hg habove
    obtain ⟨t', ss', hseq', hss', hmax', hsplits', _⟩ :=
      addSeq_all_added calls t node ss hrun hss hnb hg habove
    exact ⟨t', ss', hseq', hss', hmax', by rw [drainStore_eq, hsplits']⟩

/-- C1 witness: a two-call strictly increasing run on a fresh node is fully
accepted and drained in order, and a stale sequence id is dropped. -/
theorem addSplitWithSequence_dedup_spec_witness :
    (∃ t' ss', addSeq freshTask 0 [(⟨1, none, false, false⟩, 1), (⟨2, none, false, false⟩, 2)]
        = Except.ok (t', List.replicate 2 true)
      ∧ t'.splitsStates[0]? = some ss'
      ∧ ss'.maxSequenceId = 0
      ∧ drainStore (ss'.stores kUngroupedGroupId)
          = [] ++ [(⟨1, none, false, false⟩ : DataSplitInfo),
              (⟨2, none, false, false⟩ : DataSplitInfo)].map (fun c => Split.data c))
    ∧ addSplitWithSequence freshTask 0 (Split.data dupInfo) 0
        = Except.ok (freshTask, false, false) := by
  constructor
  · obtain ⟨t', ss', h1, h2, h3, h4⟩ :=
      addSplitWithSequence_dedup_spec.2.2.2
        [(⟨1, none, false, false⟩, 1), (⟨2, none, false, false⟩, 2)]
        freshTask 0 ⟨true, false, 0, fun _ => default⟩ rfl rfl rfl
        (by intro c hc; fin_cases hc <;> rfl)
        (by intro c hc; fin_cases hc <;> decide)
    exact ⟨t', ss', h1, h2, h3, h4⟩
  · exact addSplitWithSequence_dedup_spec.2.1 freshTask 0
      ⟨true, false, 0, fun _ => default⟩ (Split.data dupInfo) 0 rfl rfl
      (by decide)

/-- C10: while a barrier round is outstanding (`barrierRequested_`), adding
any data split to a running task fails with "Can't add new split under
barrier processing" (Task.cpp:1529-1530) before any store is touched (the
error result carries no state, so every `SplitsStore` is unchanged); and a
barrier split is only ever accepted by `addSplitLocked` when the target node
is a table-scan source that has not yet received `noMoreSplits`
(Task.cpp:1522-1527). -/
theorem addSplitLocked_barrier_rules :
    (∀ t node ss info, t.state = TaskState.running →
      t.splitsStates[node]? = some ss → t.barrierRequested = true →
      addSplit t node (Split.data info)
        = Except.error "Cannot add new split under barrier processing")
    ∧ (∀ t node r, addSplitLocked t node Split.barrier = Except.ok r →
        ∃ ss, t.splitsStates[node]? = some ss
          ∧ ss.sourceIsTableScan = true ∧ ss.noMoreSplits = false) := by
  constructor
  · intro t node ss info hrun hss hb
    simp [addSplit, addSplitLocked, hrun, hss, hb]
  · intro t node r h
    unfold addSplitLocked at h
    cases hss : t.splitsStates[node]? with
    | none => rw [hss] at h; exact absurd h (by simp)
    | some ss =>
        rw [hss] at h
        by_cases h1 : t.serialMode ∧ t.barrierSupported
        · by_cases h2 : ss.sourceIsTableScan = true
          · by_cases h3 : ss.noMoreSplits = true
            · simp [h1, h2, h3] at h
            · exact ⟨ss, rfl, h2, by simpa using h3⟩
          · simp [h1, h2] at h
        · simp [h1] at h

/-- C10 witness: a concrete data split rejected under a barrier, and a
concrete accepted barrier split targeting a table-scan node. -/
theorem addSplitLocked_barrier_rules_witness :
    addSplit { freshTask with barrierRequested := true } 0
        (Split.data dupInfo)
      = Except.error "Cannot add new split under barrier processing"
    ∧ ∃ ss, freshTask.splitsStates[0]? = some ss
        ∧ ss.sourceIsTableScan = true ∧ ss.noMoreSplits = false := by
  constructor
  · exact addSplitLocked_barrier_rules.1 { freshTask with barrierRequested := true }
      0 ⟨true, false, 0, fun _ => default⟩ dupInfo rfl rfl rfl
  · exact addSplitLocked_barrier_rules.2 freshTask 0 _ rfl

/-! ## Task lifecycle model

The lifecycle slice of `Task`: state transitions (`terminate`), completion
futures, the finished check, pause/resume, error storage and the barrier
protocol.  Promises are modelled by outstanding/fulfilled counters; a future
is `completed` or `pending`. -/

/-- The stop reasons observed by the terminate/resume paths. -/
inductive StopReason where
  | noStop
  | pause
  | terminateDriver
  | alreadyOnThread
  | alreadyTerminated
  | yieldDriver
deriving DecidableEq, Repr

/-- `ThreadState` of one driver (spec section 3): on-thread flag, terminated
flag, suspension nesting count, enqueued flag, and whether the driver holds a
blocking future. -/
structure ThreadState where
  isOnThread : Bool
  isTerminated : Bool
  numSuspensions : Nat
  isEnqueued : Bool
  hasBlockingFuture : Bool
deriving DecidableEq, Repr

/-- `ThreadState::suspended()`: the suspension count is positive. -/
def ThreadState.suspended (st : ThreadState) : Bool :=
  0 < st.numSuspensions

/-- One `DriverFactory`'s footprint: its driver count and whether it is the
output pipeline (`factory->outputDriver`, Task.cpp:2127-2135). -/
structure PipelineM where
  numDrivers : Nat
  outputDriver : Bool
deriving DecidableEq, Repr

instance : Inhabited PipelineM := ⟨⟨0, false⟩⟩

/-- A leaf source node's split store as the barrier protocol sees it:
table-scan flag, `noMoreSplits`, how many barrier splits are queued and the
waiter promises (outstanding/fulfilled). -/
structure LeafState where
  sourceIsTableScan : Bool
  noMoreSplits : Bool
  queuedBarriers : Nat
  splitPromises : Nat
  splitPromisesFulfilled : Nat
deriving DecidableEq, Repr

/-- Whether a returned future is already completed or still pending. -/
inductive FutureState where
  | completed
  | pending
deriving DecidableEq, Repr

/-- The lifecycle slice of `Task` state (Task.cpp).  Counter pairs
`xPromises`/`xFulfilled` model folly promise vectors: how many promises are
outstanding and how many have ever been satisfied.  `executionEndTimeSet`,
`terminationTimeSet` and `endTimeSet` model the `taskStats_` time stamps the
control flow branches on (a C++ value of 0 means unset). -/
structure LTask where
  state : TaskState
  exception : Option Nat
  pauseRequested : Bool
  terminateRequested : Bool
  cancellationRequested : Bool
  executorSupplied : Bool
  numTotalDrivers : Nat
  numRunningDrivers : Nat
  numFinishedDrivers : Nat
  drivers : List (Option ThreadState)
  driversClosedByTask : Nat
  numThreads : Nat
  threadFinishPromises : Nat
  completionPromises : Nat
  completionFulfilled : Nat
  listenerNotifyCount : Nat
  stateChangePromises : Nat
  stateChangeFulfilled : Nat
  resumePromises : Nat
  resumeFulfilled : Nat
  serialMode : Bool
  barrierSupported : Bool
  barrierRequested : Bool
  numDriversUnderBarrier : Nat
  barrierPromises : Nat
  barrierFulfilled : Nat
  numBarriers : Nat
  leaves : List LeafState
  executionEndTimeSet : Bool
  terminationTimeSet : Bool
  endTimeSet : Bool
  seenSplitGroupsCount : Nat
  numDriversPerSplitGroup : Nat
  numDriversUngrouped : Nat
  ungroupedExecution : Bool
  pipelines : List PipelineM
  numFinishedOutputDrivers : Nat
  hasPartitionedOutput : Bool
  partitionedOutputConsumed : Bool
deriving DecidableEq, Repr

/-- `Task::makeFinishFutureLocked` (Task.cpp:2582-2590): an already-completed
future when no driver thread is on thread, otherwise a promise registered in
`threadFinishPromises_`, realized when the last thread leaves. -/
def makeFinishFutureLocked (t : LTask) : LTask × FutureState :=
  if t.numThreads = 0 then (t, FutureState.completed)
  else ({ t with threadFinishPromises := t.threadFinishPromises + 1 },
    FutureState.pending)

/-- `Task::enterForTerminateLocked` (Task.cpp:3161-3174): an on-thread or
already-terminated driver is marked terminated in place; under a concurrent
pause the driver is left for the resume path; otherwise the driver is marked
terminated, stamped on-thread and handed to the terminate path. -/
def enterForTerminateLocked (pauseRequested : Bool) (st : ThreadState) :
    StopReason × ThreadState :=
  if st.isOnThread ∨ st.isTerminated then
    (StopReason.alreadyOnThread, { st with isTerminated := true })
  else if pauseRequested then (StopReason.pause, st)
  else (StopReason.terminateDriver,
    { st with isTerminated := true, isOnThread := true })

/-- The driver sweep of `Task::terminate` (Task.cpp:2441-2449): each present
driver goes through `enterForTerminateLocked`; drivers that report
`kTerminate` are moved out of their slot (to be closed outside the lock) and
counted; the others keep their (possibly updated) state.  Returns the new
slots and the number of drivers taken off. -/
def terminateDriversLoop (pauseRequested : Bool) :
    List (Option ThreadState) → List (Option ThreadState) × Nat
  | [] => ([], 0)
  | none :: rest =>
      let r := terminateDriversLoop pauseRequested rest
      (none :: r.1, r.2)
  | some st :: rest =>
      let e := enterForTerminateLocked pauseRequested st
      let r := terminateDriversLoop pauseRequested rest
      match e.1 with
      | StopReason.terminateDriver => (none :: r.1, r.2 + 1)
      | _ => (some e.2 :: r.1, r.2)

/-- `Task::terminate` (Task.cpp:2389-2565).  If the task is no longer running
the call only returns a finish future.  Otherwise: set the terminal state,
stamp the termination time (checking it was never stamped before), overwrite
the exception for cancel/abort, request cancellation (checking it was not
requested before) unless finishing, satisfy the completion and state-change
promises and notify completion listeners, recompute `numTotalDrivers_`, set
`terminateRequested_`, zero `numRunningDrivers_`, sweep the drivers
(`driverClosedLocked` per swept driver: `numFinishedDrivers_` grows; swept
drivers are closed by the task outside the lock), satisfy the barrier-finish
promises and all outstanding split-store waiter promises, and return a finish
future.  The exchange-client, output-buffer-manager and join-bridge teardown
(Task.cpp:2450-2558) acts on external collaborators outside this model. -/
def terminate (t : LTask) (s : TaskState) : Except String (LTask × FutureState) :=
  let t0 := if t.executionEndTimeSet then t else { t with executionEndTimeSet := true }
  if t0.state ≠ TaskState.running then Except.ok (makeFinishFutureLocked t0)
  else if t0.terminationTimeSet then
    Except.error "Termination time has already been set"
  else
    let t1 := { t0 with state := s, terminationTimeSet := true }
    let t2 :=
      if s = TaskState.canceled ∨ s = TaskState.aborted then
        { t1 with exception := some (if s = TaskState.canceled then 0 else 1) }
      else t1
    if s ≠ TaskState.finished ∧ t2.cancellationRequested then
      Except.error "cancellation already requested"
    else
      let t3 :=
        if s ≠ TaskState.finished then { t2 with cancellationRequested := true }
        else t2
      let t4 :=
        { t3 with
          completionFulfilled := t3.completionFulfilled + t3.completionPromises
          completionPromises := 0
          listenerNotifyCount := t3.listenerNotifyCount + 1
          stateChangeFulfilled := t3.stateChangeFulfilled + t3.stateChangePromises
          stateChangePromises := 0
          numTotalDrivers :=
            t3.seenSplitGroupsCount * t3.numDriversPerSplitGroup
              + t3.numDriversUngrouped
          terminateRequested := true
          numRunningDrivers := 0 }
      let sweep := terminateDriversLoop t4.pauseRequested t4.drivers
      let t5 :=
        { t4 with
          drivers := sweep.1
          numFinishedDrivers := t4.numFinishedDrivers + sweep.2
          driversClosedByTask := t4.driversClosedByTask + sweep.2 }
      let t6 :=
        { t5 with
          barrierFulfilled := t5.barrierFulfilled + t5.barrierPromises
          barrierPromises := 0
          leaves := t5.leaves.map (fun l =>
            { l with
              splitPromisesFulfilled := l.splitPromisesFulfilled + l.splitPromises
              splitPromises := 0 }) }
      Except.ok (makeFinishFutureLocked t6)

/-- `Task::taskCompletionFuture` (Task.cpp:2801-2813): a finish future when
the task is no longer running, otherwise a promise registered in
`taskCompletionPromises_`, satisfied by the terminal transition. -/
def taskCompletionFuture (t : LTask) : LTask × FutureState :=
  if t.state ≠ TaskState.running then makeFinishFutureLocked t
  else ({ t with completionPromises := t.completionPromises + 1 },
    FutureState.pending)

/-- The output gate at the end of `Task::checkIfFinishedLocked`
(Task.cpp:2179-2184): everything finished still waits for the partitioned
output to be consumed. -/
def finishGate (t : LTask) : Bool × LTask :=
  if ¬t.hasPartitionedOutput ∨ t.partitionedOutputConsumed then
    (true, { t with endTimeSet := true })
  else (false, t)

/-- `Task::checkIfFinishedLocked` (Task.cpp:2157-2187) with
`Task::getOutputPipelineId` (Task.cpp:2127-2135, modelled as the first
pipeline whose factory is the output driver; its absence is a `VELOX_FAIL`).
Not running: false.  All drivers finished: gate on output consumption.
Otherwise, in ungrouped execution, if all output-pipeline drivers finished
(early finish, e.g. a reached limit): stamp the execution end time and gate
on output consumption. -/
def checkIfFinishedLocked (t : LTask) : Except String (Bool × LTask) :=
  if t.state ≠ TaskState.running then Except.ok (false, t)
  else if t.numFinishedDrivers = t.numTotalDrivers then Except.ok (finishGate t)
  else if t.ungroupedExecution then
    match t.pipelines.findIdx? (fun p => p.outputDriver) with
    | none => Except.error "Output pipeline not found"
    | some pid =>
        if t.numFinishedOutputDrivers = (t.pipelines.getD pid default).numDrivers
        then Except.ok (finishGate { t with executionEndTimeSet := true })
        else Except.ok (false, t)
  else Except.ok (false, t)

/-- The running-task arm of `Task::resume` for one driver
(Task.cpp:1117-1144): suspended or already-enqueued drivers are skipped
(`VELOX_CHECK` that the rest are neither on thread nor terminated); a driver
with no blocking future is enqueued if an executor is supplied; a driver
blocked on an external event (or in serial mode) is left to be enqueued by
its future realization. -/
def resumeDriverRunning (executorSupplied : Bool) (st : ThreadState) :
    Except String ThreadState :=
  if st.suspended then Except.ok st
  else if st.isEnqueued then Except.ok st
  else if st.isOnThread ∨ st.isTerminated then
    Except.error "resume: driver on thread or terminated"
  else if ¬st.hasBlockingFuture ∧ executorSupplied then
    Except.ok { st with isEnqueued := true }
  else Except.ok st

/-- The running-task sweep of `Task::resume` over all driver slots. -/
def resumeRunningDrivers (executorSupplied : Bool) :
    List (Option ThreadState) → Except String (List (Option ThreadState))
  | [] => Except.ok []
  | none :: rest =>
      (resumeRunningDrivers executorSupplied rest).map (none :: ·)
  | some st :: rest =>
      match resumeDriverRunning executorSupplied st with
      | Except.error e => Except.error e
      | Except.ok st' =>
          (resumeRunningDrivers executorSupplied rest).map (some st' :: ·)

/-- The terminated-task arm of `Task::resume` (Task.cpp:1154-1169): every
off-thread, not-yet-terminated driver is marked terminated, stamped on-thread
and moved out of its slot to be force-closed; on-thread drivers (checked to
be terminated) and already-terminated drivers are left alone.  Returns the
new slots and the moved-out drivers. -/
def closeOffThreadLoop :
    List (Option ThreadState) →
      Except String (List (Option ThreadState) × List ThreadState)
  | [] => Except.ok ([], [])
  | none :: rest =>
      (closeOffThreadLoop rest).map (fun r => (none :: r.1, r.2))
  | some st :: rest =>
      if st.isOnThread then
        if ¬st.isTerminated then
          Except.error "on-thread driver in terminated task must be terminated"
        else (closeOffThreadLoop rest).map (fun r => (some st :: r.1, r.2))
      else if st.isTerminated then
        (closeOffThreadLoop rest).map (fun r => (some st :: r.1, r.2))
      else
        (closeOffThreadLoop rest).map (fun r =>
          (none :: r.1, { st with isTerminated := true, isOnThread := true } :: r.2))

/-- `Task::resume` (Task.cpp:1096-1172): clear `pauseRequested_`; if the task
is running, sweep the drivers with the running-arm rules; otherwise
force-close the off-thread, not-yet-terminated drivers (`driverClosedLocked`
per closed driver grows `numFinishedDrivers_`; `numRunningDrivers_` is
untouched since the task is not running); in both cases satisfy every pending
resume promise. -/
def resume (t : LTask) : Except String LTask :=
  let t0 := { t with pauseRequested := false }
  if t0.state = TaskState.running then
    match resumeRunningDrivers t0.executorSupplied t0.drivers with
    | Except.error e => Except.error e
    | Except.ok ds =>
        Except.ok
          { t0 with
            drivers := ds
            resumeFulfilled := t0.resumeFulfilled + t0.resumePromises
            resumePromises := 0 }
  else
    match closeOffThreadLoop t0.drivers with
    | Except.error e => Except.error e
    | Except.ok r =>
        Except.ok
          { t0 with
            drivers := r.1
            numFinishedDrivers := t0.numFinishedDrivers + r.2.length
            driversClosedByTask := t0.driversClosedByTask + r.2.length
            resumeFulfilled := t0.resumeFulfilled + t0.resumePromises
            resumePromises := 0 }

/-- `Task::setError` (Task.cpp:3098-3114): a no-op when the task is not
running or an exception is already stored; otherwise store the exception
(first error wins) and drive `terminate(kFailed)` (the `onError_` callback is
an external collaborator). -/
def setError (t : LTask) (e : Nat) : Except String LTask :=
  if t.state ≠ TaskState.running then Except.ok t
  else if t.exception.isSome then Except.ok t
  else
    match terminate { t with exception := some e } TaskState.failed with
    | Except.error msg => Except.error msg
    | Except.ok r => Except.ok r.1

/-- A sequence of `setError` calls. -/
def setErrors (t : LTask) : List Nat → Except String LTask
  | [] => Except.ok t
  | e :: rest =>
      match setError t e with
      | Except.error msg => Except.error msg
      | Except.ok t' => setErrors t' rest

/-- The per-leaf validation loop of `Task::startBarrier` (Task.cpp:1686-1693):
every leaf must be a table-scan source (`VELOX_CHECK`) that has not yet
received `noMoreSplits` (`VELOX_FAIL`). -/
def checkLeavesForBarrier : List LeafState → Except String Unit
  | [] => Except.ok ()
  | l :: rest =>
      if ¬l.sourceIsTableScan then Except.error "leaf source is not a table scan"
      else if l.noMoreSplits then
        Except.error "Cannot start barrier on task which has already received no more splits"
      else checkLeavesForBarrier rest

/-- Injecting one barrier split into a leaf store (`addSplitLocked` on a
`Split::createBarrier()`, Task.cpp:1704-1711): the barrier joins the queue
and one waiter promise, if any, is popped for fulfilment. -/
def injectBarrier (l : LeafState) : LeafState :=
  let l1 := { l with queuedBarriers := l.queuedBarriers + 1 }
  if l1.splitPromises = 0 then l1
  else
    { l1 with
      splitPromises := l1.splitPromises - 1
      splitPromisesFulfilled := l1.splitPromisesFulfilled + 1 }

/-- `Task::startBarrier` (Task.cpp:1668-1714) with
`Task::startDriverBarriersLocked` (Task.cpp:1716-1727).  Requires barrier
support; on a task no longer running the promise is satisfied immediately.
Otherwise all leaves are validated, the caller's promise joins
`barrierFinishPromises_`, and — only if no round is already outstanding
(`barrierRequested_.exchange(true)`) — `numBarriers` is bumped, one barrier
split is injected into every leaf and the under-barrier driver counter is set
to the number of drivers (all of which must be present; the per-driver
`Driver::startBarrier` flag lives in driver code outside this model). -/
def startBarrier (t : LTask) : Except String (LTask × FutureState) :=
  if ¬(t.serialMode ∧ t.barrierSupported) then
    Except.error "Task does not support barriered execution"
  else if t.state ≠ TaskState.running then Except.ok (t, FutureState.completed)
  else
    match checkLeavesForBarrier t.leaves with
    | Except.error e => Except.error e
    | Except.ok _ =>
        let t1 := { t with barrierPromises := t.barrierPromises + 1 }
        if t1.barrierRequested then Except.ok (t1, FutureState.pending)
        else
          let t2 :=
            { t1 with
              barrierRequested := true
              numBarriers := t1.numBarriers + 1
              leaves := t1.leaves.map injectBarrier }
          if t2.numDriversUnderBarrier ≠ 0 then
            Except.error "drivers already under barrier"
          else if t2.drivers.any (fun d => d.isNone) then
            Except.error "null driver in barriered task"
          else
            Except.ok
              ({ t2 with numDriversUnderBarrier := t2.drivers.length },
                FutureState.pending)

/-- `Task::finishDriverBarrier` (Task.cpp:1729-1745) with
`Task::endBarrierLocked` (Task.cpp:1747-1759): under an outstanding round
with a positive under-barrier counter, decrement it; when it reaches zero,
satisfy every barrier-finish promise and clear `barrierRequested_`. -/
def finishDriverBarrier (t : LTask) : Except String LTask :=
  if ¬t.barrierRequested then Except.error "not under barrier"
  else if t.numDriversUnderBarrier = 0 then
    Except.error "no driver under barrier"
  else if 0 < t.numDriversUnderBarrier - 1 then
    Except.ok { t with numDriversUnderBarrier := t.numDriversUnderBarrier - 1 }
  else
    Except.ok
      { t with
        numDriversUnderBarrier := 0
        barrierFulfilled := t.barrierFulfilled + t.barrierPromises
        barrierPromises := 0
        barrierRequested := false }

/-- `k` successive `finishDriverBarrier` calls. -/
def iterFinish : Nat → LTask → Except String LTask
  | 0, t => Except.ok t
  | k + 1, t =>
      match finishDriverBarrier t with
      | Except.error e => Except.error e
      | Except.ok t' => iterFinish k t'

/-- The shape of `terminate` on a running task (the single terminal
transition): the state becomes `s`, cancel/abort overwrite the exception,
every outstanding completion promise is satisfied and the completion
listeners are notified once. -/
theorem terminate_running_result (t : LTask) (s : TaskState)
    (hrun : t.state = TaskState.running)
    (hT : t.terminationTimeSet = false)
    (hC : t.cancellationRequested = false) :
    (terminate t s).toOption.map (fun r =>
      (r.1.state, r.1.exception, r.1.completionFulfilled,
       r.1.completionPromises, r.1.listenerNotifyCount))
      = some (s,
          (if s = TaskState.canceled ∨ s = TaskState.aborted then
            some (if s = TaskState.canceled then 0 else 1)
          else t.exception),
          t.completionFulfilled + t.completionPromises, 0,
          t.listenerNotifyCount + 1) := by
  by_cases hE : t.executionEndTimeSet <;>
    by_cases hs1 : s = TaskState.canceled ∨ s = TaskState.aborted <;>
      by_cases hs2 : s = TaskState.finished <;>
        by_cases hN : t.numThreads = 0 <;>
          simp [terminate, makeFinishFutureLocked, Except.toOption,
            hE, hrun, hT, hC, hs1, hs2, hN]

/-- `setError` on a task that is not running changes nothing at all. -/
theorem setError_noop_not_running (t : LTask) (e : Nat)
    (h : t.state ≠ TaskState.running) : setError t e = Except.ok t := by
  simp [setError, h]

theorem setErrors_noop_not_running (es : List Nat) (t : LTask)
    (h : t.state ≠ TaskState.running) : setErrors t es = Except.ok t := by
  induction es with
  | nil => rfl
  | cons e rest ih => simp [setErrors, setError_noop_not_running t e h, ih]

/-- C3: once a `terminate` call has moved the task to a terminal state,
every later `terminate` call leaves `state_`, `exception_`,
`numRunningDrivers_`, `numFinishedDrivers_`, the driver slots, the completion
promises and the listener-notification count unchanged and only returns a
finish future (Task.cpp:2400-2402); the single running-to-terminal
transition satisfies ALL outstanding completion promises at once and
notifies completion listeners exactly once; `taskCompletionFuture` registers
a promise only while running — afterwards it hands out a finish future
without touching the completion promises, so every completion promise is
resolved exactly once per task. -/
theorem terminate_idempotent_spec :
    (∀ t s, t.state ≠ TaskState.running →
      (terminate t s).toOption.map (fun r =>
        (r.1.state, r.1.exception, r.1.numRunningDrivers,
         r.1.numFinishedDrivers, r.1.completionFulfilled,
         r.1.completionPromises, r.1.listenerNotifyCount, r.1.drivers))
        = some (t.state, t.exception, t.numRunningDrivers,
            t.numFinishedDrivers, t.completionFulfilled,
            t.completionPromises, t.listenerNotifyCount, t.drivers))
    ∧ (∀ t s, t.state = TaskState.running → t.terminationTimeSet = false →
        t.cancellationRequested = false →
        (terminate t s).toOption.map (fun r =>
          (r.1.state, r.1.completionFulfilled, r.1.completionPromises,
           r.1.listenerNotifyCount))
          = some (s, t.completionFulfilled + t.completionPromises, 0,
              t.listenerNotifyCount + 1))
    ∧ (∀ t, t.state = TaskState.running →
        taskCompletionFuture t
          = ({ t with completionPromises := t.completionPromises + 1 },
              FutureState.pending))
    ∧ (∀ t, t.state ≠ TaskState.running →
        (taskCompletionFuture t).1.completionPromises = t.completionPromises
        ∧ (taskCompletionFuture t).1.completionFulfilled = t.completionFulfilled
        ∧ (t.numThreads = 0 →
            taskCompletionFuture t = (t, FutureState.completed))) := by
  refine ⟨?_, ?_, ?_, ?_⟩
  · intro t s h
    by_cases hE : t.executionEndTimeSet
    · have h0 : terminate t s = Except.ok (makeFinishFutureLocked t) := by
        simp [terminate, hE, h]
      rw [h0]
      by_cases hN : t.numThreads = 0 <;>
        simp [makeFinishFutureLocked, hN, Except.toOption]
    · have h0 : terminate t s
          = Except.ok (makeFinishFutureLocked { t with executionEndTimeSet := true }) := by
        simp [terminate, hE, h]
      rw [h0]
      by_cases hN : t.numThreads = 0 <;>
        simp [makeFinishFutureLocked, hN, Except.toOption]
  · intro t s hrun hT hC
    have hmap := terminate_running_result t s hrun hT hC
    cases hterm : terminate t s with
    | error msg => rw [hterm] at hmap; simp [Except.toOption] at hmap
    | ok r =>
        rw [hterm] at hmap
        simp only [Except.toOption, Option.map_some', Option.some.injEq,
          Prod.mk.injEq] at hmap
        obtain ⟨h1, _, h3, h4, h5⟩ := hmap
        simp [Except.toOption, h1, h3, h4, h5]
  · intro t hrun
    simp [taskCompletionFuture, hrun]
  · intro t h
    by_cases hN : t.numThreads = 0 <;>
      simp [taskCompletionFuture, makeFinishFutureLocked, h, hN]

/-- A base concrete lifecycle task used by witnesses and counterexamples. -/
def baseLTask : LTask :=
  { state := TaskState.running
    exception := none
    pauseRequested := false
    terminateRequested := false
    cancellationRequested := false
    executorSupplied := true
    numTotalDrivers := 0
    numRunningDrivers := 0
    numFinishedDrivers := 0
    drivers := []
    driversClosedByTask := 0
    numThreads := 0
    threadFinishPromises := 0
    completionPromises := 0
    completionFulfilled := 0
    listenerNotifyCount := 0
    stateChangePromises := 0
    stateChangeFulfilled := 0
    resumePromises := 0
    resumeFulfilled := 0
    serialMode := true
    barrierSupported := true
    barrierRequested := false
    numDriversUnderBarrier := 0
    barrierPromises := 0
    barrierFulfilled := 0
    numBarriers := 0
    leaves := []
    executionEndTimeSet := false
    terminationTimeSet := false
    endTimeSet := false
    seenSplitGroupsCount := 0
    numDriversPerSplitGroup := 0
    numDriversUngrouped := 0
    ungroupedExecution := true
    pipelines := [⟨1, true⟩]
    numFinishedOutputDrivers := 0
    hasPartitionedOutput := false
    partitionedOutputConsumed := false }

/-- C3 witness: a second `terminate` on an already-finished task with two
outstanding completion promises changes nothing and notifies nobody, and a
first `terminate` on a running task resolves both promises at once and
notifies listeners once. -/
theorem terminate_idempotent_spec_witness :
    (terminate { baseLTask with state := TaskState.finished, completionPromises := 2 }
        TaskState.failed).toOption.map (fun r =>
        (r.1.state, r.1.exception, r.1.numRunningDrivers,
         r.1.numFinishedDrivers, r.1.completionFulfilled,
         r.1.completionPromises, r.1.listenerNotifyCount, r.1.drivers))
      = some (TaskState.finished, none, 0, 0, 0, 2, 0, [])
    ∧ (terminate { baseLTask with completionPromises := 2 }
        TaskState.canceled).toOption.map (fun r =>
        (r.1.state, r.1.completionFulfilled, r.1.completionPromises,
         r.1.listenerNotifyCount))
      = some (TaskState.canceled, 2, 0, 1) := by
  constructor
  · have h := terminate_idempotent_spec.1
      { baseLTask with state := TaskState.finished, completionPromises := 2 }
      TaskState.failed (by decide)
    simpa using h
  · have h := terminate_idempotent_spec.2.1
      { baseLTask with completionPromises := 2 } TaskState.canceled rfl rfl rfl
    simpa using h

/-- C9: `setError` stores at most one exception per task — a call on a task
that is no longer running, or whose `exception_` is already set, is a
complete no-op (Task.cpp:3102-3107) — and the first stored error drives
`terminate(kFailed)`: over any non-empty run of `setError` calls starting
from a clean running task, the first error wins and the task ends Failed. -/
theorem setError_spec :
    (∀ t e, t.state ≠ TaskState.running → setError t e = Except.ok t)
    ∧ (∀ t e, t.exception.isSome = true → setError t e = Except.ok t)
    ∧ (∀ t e, t.state = TaskState.running → t.exception = none →
        t.terminationTimeSet = false → t.cancellationRequested = false →
        (setError t e).toOption.map (fun t' => (t'.state, t'.exception))
          = some (TaskState.failed, some e))
    ∧ (∀ t e es, t.state = TaskState.running → t.exception = none →
        t.terminationTimeSet = false → t.cancellationRequested = false →
        (setErrors t (e :: es)).toOption.map (fun t' => (t'.state, t'.exception))
          = some (TaskState.failed, some e)) := by
  have hset : ∀ t e, t.state = TaskState.running → t.exception = none →
      t.terminationTimeSet = false → t.cancellationRequested = false →
      ∃ t', setError t e = Except.ok t'
        ∧ t'.state = TaskState.failed ∧ t'.exception = some e := by
    intro t e hrun hexc hT hC
    have hmap := terminate_running_result { t with exception := some e }
      TaskState.failed (by simpa using hrun) (by simpa using hT)
      (by simpa using hC)
    cases hterm : terminate { t with exception := some e } TaskState.failed with
    | error msg => rw [hterm] at hmap; simp [Except.toOption] at hmap
    | ok r =>
        rw [hterm] at hmap
        simp only [Except.toOption, Option.map_some', Option.some.injEq,
          Prod.mk.injEq] at hmap
        obtain ⟨h1, h2, _⟩ := hmap
        refine ⟨r.1, ?_, h1, ?_⟩
        · unfold setError
          rw [if_neg (by simp [hrun]), if_neg (by simp [hexc]), hterm]
        · rw [h2]; simp
  refine ⟨?_, ?_, ?_, ?_⟩
  · intro t e h
    exact setError_noop_not_running t e h
  · intro t e h
    by_cases hrun : t.state = TaskState.running
    · simp [setError, hrun, h]
    · exact setError_noop_not_running t e hrun
  · intro t e hrun hexc hT hC
    obtain ⟨t', heq, h1, h2⟩ := hset t e hrun hexc hT hC
    rw [heq]
    simp [Except.toOption, h1, h2]
  · intro t e es hrun hexc hT hC
    obtain ⟨t', heq, h1, h2⟩ := hset t e hrun hexc hT hC
    have hrest : setErrors t' es = Except.ok t' :=
      setErrors_noop_not_running es t' (by rw [h1]; exact fun h => nomatch h)
    simp only [setErrors, heq, hrest]
    simp [Except.toOption, h1, h2]

/-- C9 witness: on a clean running task, the error 5 is stored and the task
fails; a retry with error 6 changes nothing. -/
theorem setError_spec_witness :
    (setErrors baseLTask [5, 6]).toOption.map (fun t' => (t'.state, t'.exception))
      = some (TaskState.failed, some 5)
    ∧ setError { baseLTask with state := TaskState.aborted } 9
        = Except.ok { baseLTask with state := TaskState.aborted } := by
  constructor
  · exact setError_spec.2.2.2 baseLTask 5 [6] rfl rfl rfl rfl
  · exact setError_spec.1 { baseLTask with state := TaskState.aborted } 9 (by decide)

/-- An ungrouped task whose single output-pipeline driver has finished while
another driver is still running: `numFinishedDrivers_ = 1` of 2. -/
def earlyTask : LTask :=
  { baseLTask with
    numTotalDrivers := 2
    numFinishedDrivers := 1
    numFinishedOutputDrivers := 1 }

/-- The task `checkIfFinishedLocked` returns alongside `true` on `earlyTask`:
the execution-end and end time stamps get set. -/
def earlyTaskOut : LTask :=
  { earlyTask with executionEndTimeSet := true, endTimeSet := true }

/-- C4, counterexample to the claim as stated: `checkIfFinishedLocked`
returns true through the ungrouped early-exit path (all OUTPUT-pipeline
drivers finished, Task.cpp:2164-2177) while `numFinishedDrivers_ (= 1)` is
NOT equal to `numTotalDrivers_ (= 2)`. -/
theorem checkIfFinished_not_all_drivers_counterexample :
    (checkIfFinishedLocked earlyTask).toOption.map Prod.fst = some true
    ∧ ¬(earlyTask.numFinishedDrivers = earlyTask.numTotalDrivers) := by
  decide

/-- C4 (amended): `checkIfFinishedLocked` returns true only on a running
task whose partitioned output (if any) is consumed, and only when either
every driver has finished (`numFinishedDrivers_ == numTotalDrivers_`) or —
ungrouped execution early exit — every driver of the output pipeline has
finished; and it returns true at most once per task: the
`terminate(kFinished)` the caller then performs moves the task out of
Running, after which every call returns false. -/
theorem checkIfFinished_spec :
    (∀ t t', checkIfFinishedLocked t = Except.ok (true, t') →
      t.state = TaskState.running
      ∧ (¬t.hasPartitionedOutput ∨ t.partitionedOutputConsumed)
      ∧ (t.numFinishedDrivers = t.numTotalDrivers
        ∨ (t.ungroupedExecution = true
            ∧ ∃ pid, t.pipelines.findIdx? (fun p => p.outputDriver) = some pid
              ∧ t.numFinishedOutputDrivers
                  = (t.pipelines.getD pid default).numDrivers)))
    ∧ (∀ t, t.state ≠ TaskState.running →
        checkIfFinishedLocked t = Except.ok (false, t))
    ∧ (∀ t t' fut, t.state = TaskState.running → t.terminationTimeSet = false →
        t.cancellationRequested = false →
        terminate t TaskState.finished = Except.ok (t', fut) →
        checkIfFinishedLocked t' = Except.ok (false, t')) := by
  refine ⟨?_, ?_, ?_⟩
  · intro t t' h
    unfold checkIfFinishedLocked at h
    split at h
    · simp at h
    · rename_i hrun
      split at h
      · rename_i hall
        unfold finishGate at h
        split at h
        · rename_i hg
          exact ⟨not_ne_iff.mp hrun, hg, Or.inl hall⟩
        · simp at h
      · rename_i hall
        split at h
        · rename_i hug
          split at h
          · simp at h
          · rename_i pid hpid
            split at h
            · rename_i hout
              unfold finishGate at h
              split at h
              · rename_i hg
                exact ⟨not_ne_iff.mp hrun, by simpa using hg,
                  Or.inr ⟨hug, pid, hpid, hout⟩⟩
              · simp at h
            · simp at h
        · simp at h
  · intro t h
    simp [checkIfFinishedLocked, h]
  · intro t t' fut hrun hT hC hterm
    have hmap := terminate_running_result t TaskState.finished hrun hT hC
    rw [hterm] at hmap
    simp only [Except.toOption, Option.map_some', Option.some.injEq,
      Prod.mk.injEq] at hmap
    have hstate : t'.state = TaskState.finished := hmap.1
    simp [checkIfFinishedLocked, hstate]

/-- C4 witness: the early-exit instance satisfies the amended
characterization, and a canceled task reports not-finished. -/
theorem checkIfFinished_spec_witness :
    (earlyTask.state = TaskState.running
      ∧ (¬earlyTask.hasPartitionedOutput ∨ earlyTask.partitionedOutputConsumed)
      ∧ (earlyTask.numFinishedDrivers = earlyTask.numTotalDrivers
        ∨ (earlyTask.ungroupedExecution = true
            ∧ ∃ pid, earlyTask.pipelines.findIdx? (fun p => p.outputDriver) = some pid
              ∧ earlyTask.numFinishedOutputDrivers
                  = (earlyTask.pipelines.getD pid default).numDrivers)))
    ∧ checkIfFinishedLocked { baseLTask with state := TaskState.canceled }
        = Except.ok (false, { baseLTask with state := TaskState.canceled }) := by
  constructor
  · exact checkIfFinished_spec.1 earlyTask earlyTaskOut rfl
  · exact checkIfFinished_spec.2.1 { baseLTask with state := TaskState.canceled }
      (by decide)

/-- Fewer `finishDriverBarrier` calls than the under-barrier driver count
leave the round outstanding: nothing is fulfilled, the counter just drops. -/
theorem iterFinish_lt (k : Nat) (n : Nat) (t : LTask)
    (hb : t.barrierRequested = true)
    (hn : t.numDriversUnderBarrier = n) (hk : k < n) :
    ∃ t', iterFinish k t = Except.ok t'
      ∧ t'.barrierRequested = true
      ∧ t'.numDriversUnderBarrier = n - k
      ∧ t'.barrierFulfilled = t.barrierFulfilled
      ∧ t'.barrierPromises = t.barrierPromises
      ∧ t'.leaves = t.leaves := by
  induction k generalizing t n with
  | zero => exact ⟨t, rfl, hb, by omega, rfl, rfl, rfl⟩
  | succ k ih =>
      have h1 : finishDriverBarrier t
          = Except.ok { t with numDriversUnderBarrier := n - 1 } := by
        unfold finishDriverBarrier
        rw [if_neg (by simp [hb]), if_neg (by omega), if_pos (by omega)]
        rw [hn]
      obtain ⟨t', heq, hb', hn', hf', hp', hl'⟩ :=
        ih (n - 1) { t with numDriversUnderBarrier := n - 1 } hb rfl (by omega)
      refine ⟨t', ?_, hb', by rw [hn']; omega, hf', hp', hl'⟩
      simp [iterFinish, h1, heq]

/-- Exactly as many `finishDriverBarrier` calls as under-barrier drivers end
the round: all barrier-finish promises are fulfilled and `barrierRequested_`
is cleared. -/
theorem iterFinish_exact (n : Nat) (t : LTask)
    (hb : t.barrierRequested = true)
    (hn : t.numDriversUnderBarrier = n) (h0 : 0 < n) :
    ∃ t', iterFinish n t = Except.ok t'
      ∧ t'.barrierRequested = false
      ∧ t'.numDriversUnderBarrier = 0
      ∧ t'.barrierFulfilled = t.barrierFulfilled + t.barrierPromises
      ∧ t'.barrierPromises = 0 := by
  induction n generalizing t with
  | zero => omega
  | succ k ih =>
      by_cases hk : k = 0
      · subst hk
        have h1 : finishDriverBarrier t
            = Except.ok
                { t with
                  numDriversUnderBarrier := 0
                  barrierFulfilled := t.barrierFulfilled + t.barrierPromises
                  barrierPromises := 0
                  barrierRequested := false } := by
          unfold finishDriverBarrier
          rw [if_neg (by simp [hb]), if_neg (by omega), if_neg (by omega)]
        exact ⟨{ t with
            numDriversUnderBarrier := 0
            barrierFulfilled := t.barrierFulfilled + t.barrierPromises
            barrierPromises := 0
            barrierRequested := false },
          by simp [iterFinish, h1], rfl, rfl, rfl, rfl⟩
      · have hkpos : 0 < k := Nat.pos_of_ne_zero hk
        have h1 : finishDriverBarrier t
            = Except.ok { t with numDriversUnderBarrier := k } := by
          unfold finishDriverBarrier
          rw [if_neg (by simp [hb]), if_neg (by omega), if_pos (by omega)]
          rw [hn]
          simp
        obtain ⟨t', heq, hb', hn', hf', hp'⟩ :=
          ih { t with numDriversUnderBarrier := k } hb rfl hkpos
        refine ⟨t', ?_, hb', hn', hf', hp'⟩
        simp [iterFinish, h1, heq]

/-- C7: a fresh `startBarrier` on a running task sets the under-barrier
counter to the number of drivers, bumps `numBarriers`, injects exactly one
barrier split into every leaf store and registers the caller's pending
promise; a second `startBarrier` while the round is outstanding only adds
its promise to the SAME round — no new barrier splits, `numBarriers` and the
counter untouched; and the round's promises are fulfilled exactly when the
under-barrier counter reaches zero (which also clears `barrierRequested_`):
fewer `finishDriverBarrier` calls than drivers fulfil nothing, the
`numDrivers`-th call fulfils them all. -/
theorem barrier_roundtrip_spec :
    (∀ t, t.serialMode = true → t.barrierSupported = true →
      t.state = TaskState.running →
      checkLeavesForBarrier t.leaves = Except.ok () →
      t.barrierRequested = false → t.numDriversUnderBarrier = 0 →
      t.drivers.any (fun d => d.isNone) = false →
      startBarrier t
        = Except.ok
            ({ t with
                barrierPromises := t.barrierPromises + 1
                barrierRequested := true
                numBarriers := t.numBarriers + 1
                leaves := t.leaves.map injectBarrier
                numDriversUnderBarrier := t.drivers.length },
              FutureState.pending))
    ∧ (∀ l, (injectBarrier l).queuedBarriers = l.queuedBarriers + 1)
    ∧ (∀ t, t.serialMode = true → t.barrierSupported = true →
        t.state = TaskState.running →
        checkLeavesForBarrier t.leaves = Except.ok () →
        t.barrierRequested = true →
        startBarrier t
          = Except.ok
              ({ t with barrierPromises := t.barrierPromises + 1 },
                FutureState.pending))
    ∧ (∀ t n k, t.barrierRequested = true → t.numDriversUnderBarrier = n →
        k < n →
        ∃ t', iterFinish k t = Except.ok t'
          ∧ t'.barrierRequested = true
          ∧ t'.barrierFulfilled = t.barrierFulfilled
          ∧ t'.barrierPromises = t.barrierPromises)
    ∧ (∀ t n, t.barrierRequested = true → t.numDriversUnderBarrier = n →
        0 < n →
        ∃ t', iterFinish n t = Except.ok t'
          ∧ t'.barrierRequested = false
          ∧ t'.barrierFulfilled = t.barrierFulfilled + t.barrierPromises
          ∧ t'.barrierPromises = 0) := by
  refine ⟨?_, ?_, ?_, ?_, ?_⟩
  · intro t hsm hbs hrun hleaves hbr hzero hdrv
    simp [startBarrier, hsm, hbs, hrun, hleaves, hbr, hzero, hdrv]
  · intro l
    by_cases h : l.splitPromises = 0 <;> simp [injectBarrier, h]
  · intro t hsm hbs hrun hleaves hbr
    simp [startBarrier, hsm, hbs, hrun, hleaves, hbr]
  · intro t n k hb hn hk
    obtain ⟨t', heq, h1, _, h3, h4, _⟩ := iterFinish_lt k n t hb hn hk
    exact ⟨t', heq, h1, h3, h4⟩
  · intro t n hb hn h0
    obtain ⟨t', heq, h1, _, h3, h4⟩ := iterFinish_exact n t hb hn h0
    exact ⟨t', heq, h1, h3, h4⟩

/-- An idle off-thread driver. -/
def idleDriver : ThreadState := ⟨false, false, 0, false, false⟩

/-- A serial two-driver task with one table-scan leaf, ready for a barrier. -/
def barrierTask : LTask :=
  { baseLTask with
    drivers := [some idleDriver, some idleDriver]
    leaves := [⟨true, false, 0, 1, 0⟩] }

/-- `barrierTask` mid-round: the barrier outstanding, both drivers pending,
one caller promise registered. -/
def midBarrierTask : LTask :=
  { barrierTask with
    barrierRequested := true
    numDriversUnderBarrier := 2
    barrierPromises := 1 }

/-- C7 witness: on a concrete two-driver task, a fresh round sets the
counter to 2 and wakes the leaf waiter; one finish call resolves nothing;
the second finish call resolves the round. -/
theorem barrier_roundtrip_spec_witness :
    startBarrier barrierTask
      = Except.ok
          ({ barrierTask with
              barrierPromises := 1
              barrierRequested := true
              numBarriers := 1
              leaves := [⟨true, false, 1, 0, 1⟩]
              numDriversUnderBarrier := 2 },
            FutureState.pending)
    ∧ (∃ t', iterFinish 1 midBarrierTask = Except.ok t'
        ∧ t'.barrierRequested = true ∧ t'.barrierFulfilled = 0
        ∧ t'.barrierPromises = 1)
    ∧ (∃ t', iterFinish 2 midBarrierTask = Except.ok t'
        ∧ t'.barrierRequested = false ∧ t'.barrierFulfilled = 0 + 1
        ∧ t'.barrierPromises = 0) := by
  refine ⟨?_, ?_, ?_⟩
  · have h := barrier_roundtrip_spec.1 barrierTask rfl rfl rfl rfl rfl rfl
      (by decide)
    rw [h]
    rfl
  · exact barrier_roundtrip_spec.2.2.2.1 _ 2 1 rfl rfl (by omega)
  · exact barrier_roundtrip_spec.2.2.2.2 _ 2 rfl rfl (by omega)

/-- Per-slot characterization of the running-task resume sweep. -/
theorem resumeRunningDrivers_spec (ex : Bool)
    (ds ds' : List (Option ThreadState))
    (h : resumeRunningDrivers ex ds = Except.ok ds') :
    ds'.length = ds.length
    ∧ ∀ i : Nat, (ds[i]? = some none → ds'[i]? = some none)
        ∧ (∀ st : ThreadState, ds[i]? = some (some st) →
            ∃ st', resumeDriverRunning ex st = Except.ok st'
              ∧ ds'[i]? = some (some st')) := by
  induction ds generalizing ds' with
  | nil =>
      simp only [resumeRunningDrivers, Except.ok.injEq] at h
      subst h
      simp
  | cons d rest ih =>
      cases d with
      | none =>
          cases hr : resumeRunningDrivers ex rest with
          | error e =>
              rw [resumeRunningDrivers, hr] at h
              simp [Except.map] at h
          | ok rest' =>
              rw [resumeRunningDrivers, hr] at h
              simp only [Except.map, Except.ok.injEq] at h
              subst h
              obtain ⟨hl, hidx⟩ := ih rest' hr
              refine ⟨by simp [hl], ?_⟩
              intro i
              cases i with
              | zero => simp
              | succ j => simpa using hidx j
      | some st =>
          cases hst : resumeDriverRunning ex st with
          | error e =>
              rw [resumeRunningDrivers, hst] at h
              simp at h
          | ok st1 =>
              cases hr : resumeRunningDrivers ex rest with
              | error e =>
                  rw [resumeRunningDrivers, hst, hr] at h
                  simp [Except.map] at h
              | ok rest' =>
                  rw [resumeRunningDrivers, hst, hr] at h
                  simp only [Except.map, Except.ok.injEq] at h
                  subst h
                  obtain ⟨hl, hidx⟩ := ih rest' hr
                  refine ⟨by simp [hl], ?_⟩
                  intro i
                  cases i with
                  | zero =>
                      refine ⟨by simp, ?_⟩
                      intro st0 h0
                      simp only [List.getElem?_cons_zero, Option.some.injEq] at h0
                      subst h0
                      exact ⟨st1, hst, by simp⟩
                  | succ j => simpa using hidx j

/-- Per-slot characterization of the terminated-task force-close sweep. -/
theorem closeOffThreadLoop_spec (ds ds' : List (Option ThreadState))
    (closed : List ThreadState)
    (h : closeOffThreadLoop ds = Except.ok (ds', closed)) :
    ds'.length = ds.length
    ∧ (∀ st' : ThreadState, st' ∈ closed →
        st'.isTerminated = true ∧ st'.isOnThread = true)
    ∧ ∀ i : Nat, (ds[i]? = some none → ds'[i]? = some none)
        ∧ (∀ st : ThreadState, ds[i]? = some (some st) →
            (st.isOnThread = true → ds'[i]? = some (some st)
              ∧ st.isTerminated = true)
            ∧ (st.isOnThread = false → st.isTerminated = true →
                ds'[i]? = some (some st))
            ∧ (st.isOnThread = false → st.isTerminated = false →
                ds'[i]? = some none
                ∧ { st with isTerminated := true, isOnThread := true } ∈ closed)) := by
  induction ds generalizing ds' closed with
  | nil =>
      simp only [closeOffThreadLoop, Except.ok.injEq, Prod.mk.injEq] at h
      obtain ⟨h1, h2⟩ := h
      subst h1
      subst h2
      simp
  | cons d rest ih =>
      cases d with
      | none =>
          cases hr : closeOffThreadLoop rest with
          | error e =>
              rw [closeOffThreadLoop, hr] at h
              simp [Except.map] at h
          | ok r =>
              rw [closeOffThreadLoop, hr] at h
              simp only [Except.map, Except.ok.injEq, Prod.mk.injEq] at h
              obtain ⟨h1, h2⟩ := h
              subst h1
              subst h2
              obtain ⟨hl, hc, hidx⟩ := ih r.1 r.2 (by rw [hr])
              refine ⟨by simp [hl], hc, ?_⟩
              intro i
              cases i with
              | zero => simp
              | succ j => simpa using hidx j
      | some st =>
          by_cases hot : st.isOnThread = true
          · by_cases hterm : st.isTerminated = true
            · cases hr : closeOffThreadLoop rest with
              | error e =>
                  rw [closeOffThreadLoop] at h
                  rw [if_pos hot, if_neg (by simp [hterm]), hr] at h
                  simp [Except.map] at h
              | ok r =>
                  rw [closeOffThreadLoop] at h
                  rw [if_pos hot, if_neg (by simp [hterm]), hr] at h
                  simp only [Except.map, Except.ok.injEq, Prod.mk.injEq] at h
                  obtain ⟨h1, h2⟩ := h
                  subst h1
                  subst h2
                  obtain ⟨hl, hc, hidx⟩ := ih r.1 r.2 (by rw [hr])
                  refine ⟨by simp [hl], hc, ?_⟩
                  intro i
                  cases i with
                  | zero =>
                      refine ⟨by simp, ?_⟩
                      intro st0 h0
                      simp only [List.getElem?_cons_zero, Option.some.injEq] at h0
                      subst h0
                      exact ⟨fun _ => ⟨by simp, hterm⟩,
                        fun hx _ => absurd hot (by simp [hx]),
                        fun hx _ => absurd hot (by simp [hx])⟩
                  | succ j => simpa using hidx j
            · rw [closeOffThreadLoop] at h
              rw [if_pos hot, if_pos (by simpa using hterm)] at h
              simp at h
          · by_cases hterm : st.isTerminated = true
            · cases hr : closeOffThreadLoop rest with
              | error e =>
                  rw [closeOffThreadLoop] at h
                  rw [if_neg (by simpa using hot), if_pos hterm, hr] at h
                  simp [Except.map] at h
              | ok r =>
                  rw [closeOffThreadLoop] at h
                  rw [if_neg (by simpa using hot), if_pos hterm, hr] at h
                  simp only [Except.map, Except.ok.injEq, Prod.mk.injEq] at h
                  obtain ⟨h1, h2⟩ := h
                  subst h1
                  subst h2
                  obtain ⟨hl, hc, hidx⟩ := ih r.1 r.2 (by rw [hr])
                  refine ⟨by simp [hl], hc, ?_⟩
                  intro i
                  cases i with
                  | zero =>
                      refine ⟨by simp, ?_⟩
                      intro st0 h0
                      simp only [List.getElem?_cons_zero, Option.some.injEq] at h0
                      subst h0
                      exact ⟨fun hx => absurd hx hot, fun _ _ => by simp,
                        fun _ hx => absurd hterm (by simp [hx])⟩
                  | succ j => simpa using hidx j
            · cases hr : closeOffThreadLoop rest with
              | error e =>
                  rw [closeOffThreadLoop] at h
                  rw [if_neg (by simpa using hot), if_neg (by simpa using hterm),
                    hr] at h
                  simp [Except.map] at h
              | ok r =>
                  rw [closeOffThreadLoop] at h
                  rw [if_neg (by simpa using hot), if_neg (by simpa using hterm),
                    hr] at h
                  simp only [Except.map, Except.ok.injEq, Prod.mk.injEq] at h
                  obtain ⟨h1, h2⟩ := h
                  subst h1
                  subst h2
                  obtain ⟨hl, hc, hidx⟩ := ih r.1 r.2 (by rw [hr])
                  refine ⟨by simp [hl], ?_, ?_⟩
                  · intro st' hmem
                    simp only [List.mem_cons] at hmem
                    cases hmem with
                    | inl hx => subst hx; exact ⟨rfl, rfl⟩
                    | inr hx => exact hc st' hx
                  · intro i
                    cases i with
                    | zero =>
                        refine ⟨by simp, ?_⟩
                        intro st0 h0
                        simp only [List.getElem?_cons_zero, Option.some.injEq] at h0
                        subst h0
                        exact ⟨fun hx => absurd hx hot, fun _ hx => absurd hx hterm,
                          fun _ _ => ⟨by simp, by simp⟩⟩
                    | succ j =>
                        have hx := hidx j
                        refine ⟨?_, ?_⟩
                        · intro hj
                          simpa using hx.1 (by simpa using hj)
                        · intro st0 hj
                          have hres := hx.2 st0 (by simpa using hj)
                          refine ⟨fun ha => ?_, fun ha hb => ?_, fun ha hb => ?_⟩
                          · exact ⟨by simpa using (hres.1 ha).1, (hres.1 ha).2⟩
                          · simpa using hres.2.1 ha hb
                          · exact ⟨by simpa using (hres.2.2 ha hb).1,
                              by simp [(hres.2.2 ha hb).2]⟩

/-- Case analysis of the per-driver running-resume step: suspended and
enqueued drivers are untouched; an unblocked driver is enqueued when an
executor exists; a driver with a blocking future (or in serial mode) is
untouched. -/
theorem resumeDriverRunning_cases (ex : Bool) (st st' : ThreadState)
    (h : resumeDriverRunning ex st = Except.ok st') :
    (st.suspended = true → st' = st)
    ∧ (st.suspended = false → st.isEnqueued = true → st' = st)
    ∧ (st.suspended = false → st.isEnqueued = false →
        st.hasBlockingFuture = false → ex = true →
        st' = { st with isEnqueued := true })
    ∧ (st.suspended = false → st.isEnqueued = false →
        (st.hasBlockingFuture = true ∨ ex = false) → st' = st) := by
  unfold resumeDriverRunning at h
  split at h
  · rename_i hs
    simp only [Except.ok.injEq] at h
    subst h
    exact ⟨fun _ => rfl, fun hf _ => absurd hs (by simp [hf]),
      fun hf _ _ _ => absurd hs (by simp [hf]),
      fun hf _ _ => absurd hs (by simp [hf])⟩
  · rename_i hs
    split at h
    · rename_i he
      simp only [Except.ok.injEq] at h
      subst h
      exact ⟨fun hx => absurd hx hs, fun _ _ => rfl,
        fun _ hf _ _ => absurd he (by simp [hf]),
        fun _ hf _ => absurd he (by simp [hf])⟩
    · rename_i he
      split at h
      · simp at h
      · rename_i hoc
        split at h
        · rename_i hbe
          simp only [Except.ok.injEq] at h
          subst h
          refine ⟨fun hx => absurd hx hs, fun _ hx => absurd hx he,
            fun _ _ _ _ => rfl, fun _ _ hor => ?_⟩
          cases hor with
          | inl hx => exact absurd hx hbe.1
          | inr hx => exact absurd hbe.2 (by simp [hx])
        · rename_i hbe
          simp only [Except.ok.injEq] at h
          subst h
          refine ⟨fun hx => absurd hx hs, fun _ hx => absurd hx he,
            fun _ _ hbf hex => ?_, fun _ _ _ => rfl⟩
          exact absurd ⟨by simp [hbf], hex⟩ hbe

/-- A driver off thread, not terminated, not suspended, not enqueued, blocked
on an external future. -/
def blockedDriver : ThreadState := ⟨false, false, 0, false, true⟩

/-- C8, counterexample to the claim as stated: on a RUNNING task, a driver
that is neither suspended nor enqueued but holds a blocking future is NOT
re-enqueued by `resume` (Task.cpp:1131-1143: "Do not continue a Driver that
is blocked on external event") — its slot is returned untouched with
`isEnqueued` still false. -/
theorem resume_leaves_blocked_driver_counterexample :
    ({ baseLTask with drivers := [some blockedDriver] } : LTask).state
        = TaskState.running
    ∧ blockedDriver.suspended = false
    ∧ blockedDriver.isEnqueued = false
    ∧ (resume { baseLTask with drivers := [some blockedDriver] }).toOption.map
        (fun t' => t'.drivers) = some [some blockedDriver] := by
  decide

/-- C8 (amended): `resume` always clears `pauseRequested_` and fulfils every
pending resume promise; on a running task it re-enqueues exactly the drivers
that are not suspended, not already enqueued, hold NO blocking future and
only when an executor is supplied (serial-mode or externally-blocked drivers
are left to be enqueued by their future realization), leaving every other
driver untouched; on a task that is no longer running it instead marks every
off-thread, not-yet-terminated driver terminated and force-closes it
(clearing its slot), leaving on-thread and already-terminated drivers
alone. -/
theorem resume_spec :
    (∀ t t', resume t = Except.ok t' →
      t'.pauseRequested = false
      ∧ t'.resumeFulfilled = t.resumeFulfilled + t.resumePromises
      ∧ t'.resumePromises = 0)
    ∧ (∀ t t', t.state = TaskState.running → resume t = Except.ok t' →
        t'.drivers.length = t.drivers.length
        ∧ ∀ i : Nat, ∀ st : ThreadState, t.drivers[i]? = some (some st) →
            (st.suspended = true → t'.drivers[i]? = some (some st))
            ∧ (st.suspended = false → st.isEnqueued = true →
                t'.drivers[i]? = some (some st))
            ∧ (st.suspended = false → st.isEnqueued = false →
                st.hasBlockingFuture = false → t.executorSupplied = true →
                t'.drivers[i]? = some (some { st with isEnqueued := true }))
            ∧ (st.suspended = false → st.isEnqueued = false →
                (st.hasBlockingFuture = true ∨ t.executorSupplied = false) →
                t'.drivers[i]? = some (some st)))
    ∧ (∀ t t', t.state ≠ TaskState.running → resume t = Except.ok t' →
        t'.drivers.length = t.drivers.length
        ∧ ∀ i : Nat, ∀ st : ThreadState, t.drivers[i]? = some (some st) →
            (st.isOnThread = true → t'.drivers[i]? = some (some st))
            ∧ (st.isOnThread = false → st.isTerminated = true →
                t'.drivers[i]? = some (some st))
            ∧ (st.isOnThread = false → st.isTerminated = false →
                t'.drivers[i]? = some none)) := by
  refine ⟨?_, ?_, ?_⟩
  · intro t t' h
    simp only [resume] at h
    by_cases hrun : t.state = TaskState.running
    · rw [if_pos hrun] at h
      cases hr : resumeRunningDrivers t.executorSupplied t.drivers with
      | error e => rw [hr] at h; simp at h
      | ok ds =>
          rw [hr] at h
          simp only [Except.ok.injEq] at h
          subst h
          simp
    · rw [if_neg hrun] at h
      cases hr : closeOffThreadLoop t.drivers with
      | error e => rw [hr] at h; simp at h
      | ok r =>
          rw [hr] at h
          simp only [Except.ok.injEq] at h
          subst h
          simp
  · intro t t' hrun h
    simp only [resume] at h
    rw [if_pos hrun] at h
    cases hr : resumeRunningDrivers t.executorSupplied t.drivers with
    | error e => rw [hr] at h; simp at h
    | ok ds =>
        rw [hr] at h
        simp only [Except.ok.injEq] at h
        subst h
        obtain ⟨hl, hidx⟩ := resumeRunningDrivers_spec t.executorSupplied
          t.drivers ds hr
        refine ⟨by simpa using hl, ?_⟩
        intro i st hsl
        obtain ⟨st', hres, hsl'⟩ := (hidx i).2 st hsl
        have hcase := resumeDriverRunning_cases t.executorSupplied st st' hres
        refine ⟨fun hs => ?_, fun hs he => ?_, fun hs he hb hex => ?_,
          fun hs he hor => ?_⟩
        · rw [hcase.1 hs] at hsl'; simpa using hsl'
        · rw [hcase.2.1 hs he] at hsl'; simpa using hsl'
        · rw [hcase.2.2.1 hs he hb hex] at hsl'; simpa using hsl'
        · rw [hcase.2.2.2 hs he hor] at hsl'; simpa using hsl'
  · intro t t' hrun h
    simp only [resume] at h
    rw [if_neg hrun] at h
    cases hr : closeOffThreadLoop t.drivers with
    | error e => rw [hr] at h; simp at h
    | ok r =>
        rw [hr] at h
        simp only [Except.ok.injEq] at h
        subst h
        obtain ⟨hl, _, hidx⟩ := closeOffThreadLoop_spec t.drivers r.1 r.2
          (by rw [hr])
        refine ⟨by simpa using hl, ?_⟩
        intro i st hsl
        have hres := (hidx i).2 st hsl
        exact ⟨fun ha => by simpa using (hres.1 ha).1,
          fun ha hb => by simpa using hres.2.1 ha hb,
          fun ha hb => by simpa using (hres.2.2 ha hb).1⟩

/-- The concrete running one-driver task the C8 witness resumes. -/
def wTask : LTask :=
  { baseLTask with drivers := [some idleDriver], resumePromises := 3 }

/-- What `resume` produces on `wTask`: the driver enqueued, the three resume
promises fulfilled. -/
def wOut : LTask :=
  { wTask with
    drivers := [some { idleDriver with isEnqueued := true }]
    resumeFulfilled := 3
    resumePromises := 0 }

/-- C8 witness: resuming a concrete running task enqueues its idle driver
and fulfils all three pending resume promises. -/
theorem resume_spec_witness :
    wOut.pauseRequested = false
    ∧ wOut.resumeFulfilled = wTask.resumeFulfilled + wTask.resumePromises
    ∧ wOut.resumePromises = 0
    ∧ wOut.drivers[0]? = some (some { idleDriver with isEnqueued := true }) := by
  have hr : resume wTask = Except.ok wOut := rfl
  have ha := resume_spec.1 wTask wOut hr
  have hb := (resume_spec.2.1 wTask wOut rfl hr).2 0 idleDriver rfl
  exact ⟨ha.1, ha.2.1, ha.2.2, hb.2.2.1 rfl rfl rfl rfl⟩

/-! ## Memory reclamation bridge (Task::MemoryReclaimer) -/

/-- The environment a `MemoryReclaimer::reclaimTask` invocation runs in: the
outcome of waiting on `requestPause()`'s future within `maxWaitMs`, whether
the task was independently cancelled while pausing, and the result of the
generic pool-tree reclaim (`memory::MemoryReclaimer::reclaim`) — an error
models a thrown exception. -/
structure ReclaimEnv where
  pausedWithinWait : Bool
  cancelled : Bool
  inner : Except Nat Nat
deriving Repr

/-- How one `reclaimTask` invocation ends: normally with reclaimed bytes,
with the pause-timeout hard failure, or by rethrowing the inner reclaim's
exception. -/
inductive ReclaimResult where
  | reclaimed (bytes : Nat)
  | pauseTimeout
  | innerError (e : Nat)
deriving DecidableEq, Repr

/-- Observable effects of one `reclaimTask` invocation: its result, how many
times `Task::resume` was called, and how many times `Task::setError` was
called. -/
structure ReclaimOutcome where
  result : ReclaimResult
  resumeCalls : Nat
  setErrorCalls : Nat
deriving DecidableEq, Repr

/-- `Task::MemoryReclaimer::reclaimTask` (Task.cpp:3513-3575).  The
`folly::makeGuard` scope guard installed FIRST (Task.cpp:3518-3525) calls
`Task::resume` on every exit path, normal or exceptional, so each branch
below records exactly one resume call.  Control flow: wait for
`requestPause()` — indefinitely when `maxWaitMs == 0`, else up to
`maxWaitMs`; a timeout is the hard failure "Memory reclaim failed to wait
for task to pause" (Task.cpp:3538-3545).  A task cancelled while pausing is
not reclaimed from (returns 0, Task.cpp:3552-3555).  Otherwise the pool-tree
reclaim runs; if it throws, `setError` records the exception on the task and
it is rethrown (Task.cpp:3567-3573). -/
def reclaimTask (env : ReclaimEnv) (maxWaitMs : Nat) : ReclaimOutcome :=
  let paused := if maxWaitMs = 0 then true else env.pausedWithinWait
  if paused = false then
    { result := ReclaimResult.pauseTimeout, resumeCalls := 1, setErrorCalls := 0 }
  else if env.cancelled then
    { result := ReclaimResult.reclaimed 0, resumeCalls := 1, setErrorCalls := 0 }
  else
    match env.inner with
    | Except.ok n =>
        { result := ReclaimResult.reclaimed n, resumeCalls := 1, setErrorCalls := 0 }
    | Except.error e =>
        { result := ReclaimResult.innerError e, resumeCalls := 1, setErrorCalls := 1 }

/-- C2: every `reclaimTask` invocation calls `Task::resume` exactly once
before returning or propagating — including when the inner pool-tree reclaim
throws, in which case the exception is stored on the task via `setError` and
rethrown — and when `requestPause`'s future is not satisfied within a
non-zero `maxWaitMs` the invocation ends in the pause-timeout hard failure
(it neither hangs nor silently returns), still resuming the task. -/
theorem reclaimTask_spec (env : ReclaimEnv) (maxWaitMs : Nat) :
    (reclaimTask env maxWaitMs).resumeCalls = 1
    ∧ (maxWaitMs ≠ 0 → env.pausedWithinWait = false →
        (reclaimTask env maxWaitMs).result = ReclaimResult.pauseTimeout)
    ∧ (∀ e, (maxWaitMs = 0 ∨ env.pausedWithinWait = true) →
        env.cancelled = false → env.inner = Except.error e →
        (reclaimTask env maxWaitMs).result = ReclaimResult.innerError e
        ∧ (reclaimTask env maxWaitMs).setErrorCalls = 1)
    ∧ ((maxWaitMs = 0 ∨ env.pausedWithinWait = true) → env.cancelled = true →
        (reclaimTask env maxWaitMs).result = ReclaimResult.reclaimed 0) := by
  refine ⟨?_, ?_, ?_, ?_⟩
  · by_cases h0 : maxWaitMs = 0 <;>
      by_cases hp : env.pausedWithinWait = true <;>
        by_cases hc : env.cancelled = true <;>
          cases hi : env.inner <;>
            simp [reclaimTask, h0, hp, hc, hi]
  · intro h0 hp
    simp [reclaimTask, h0, hp]
  · intro e hpw hc hi
    cases hpw with
    | inl h0 => constructor <;> simp [reclaimTask, h0, hc, hi]
    | inr hp => constructor <;> simp [reclaimTask, hp, hc, hi]
  · intro hpw hc
    cases hpw with
    | inl h0 => simp [reclaimTask, h0, hc]
    | inr hp => simp [reclaimTask, hp, hc]

/-- C2 witness: a concrete timed-out pause fails hard with one resume call,
and a concrete throwing inner reclaim stores the error, rethrows and still
resumes once. -/
theorem reclaimTask_spec_witness :
    (reclaimTask ⟨false, false, Except.ok 7⟩ 100).resumeCalls = 1
    ∧ (reclaimTask ⟨false, false, Except.ok 7⟩ 100).result
        = ReclaimResult.pauseTimeout
    ∧ (reclaimTask ⟨true, false, Except.error 3⟩ 100).result
        = ReclaimResult.innerError 3
    ∧ (reclaimTask ⟨true, false, Except.error 3⟩ 100).resumeCalls = 1
    ∧ (reclaimTask ⟨true, false, Except.error 3⟩ 100).setErrorCalls = 1 := by
  refine ⟨(reclaimTask_spec ⟨false, false, Except.ok 7⟩ 100).1, ?_, ?_, ?_, ?_⟩
  · exact (reclaimTask_spec ⟨false, false, Except.ok 7⟩ 100).2.1 (by decide) rfl
  · exact ((reclaimTask_spec ⟨true, false, Except.error 3⟩ 100).2.2.1 3
      (Or.inr rfl) rfl rfl).1
  · exact (reclaimTask_spec ⟨true, false, Except.error 3⟩ 100).1
  · exact ((reclaimTask_spec ⟨true, false, Except.error 3⟩ 100).2.2.1 3
      (Or.inr rfl) rfl rfl).2

end VeloxTask
